import Mathlib

/-!
Verification development for the `ediel` parsing library.

The Python source is shallowly embedded:
* csv-decoded input files are `List (List String)` (one inner list per line);
* pandas cell values are `PyVal` (`num none` plays the role of float NaN,
  `time none` of NaT);
* timestamps are integers (minutes) for the MIG family and rationals for the
  two-wire family (where count-derived indexes divide a time span evenly);
* Python exceptions are `Except` errors;
* Python extended slicing `xs[a:b:c]` is `pySlice`, implementing the CPython
  index-normalisation rules.
-/

namespace Ediel

/-- A pandas cell value: a float (`num none` is NaN), a string cell,
a timestamp (`time none` is NaT), or an integer cell. -/
inductive PyVal where
  | num (q : Option ℚ)
  | str (s : String)
  | time (t : Option Int)
  | intg (n : Option Int)
deriving DecidableEq, Repr

/-- pandas missing-value test on a cell. -/
def PyVal.isNA : PyVal → Bool
  | .num none => true
  | .time none => true
  | .intg none => true
  | _ => false

/-! ### CPython extended-slice semantics -/

/-- Normalised index list of the Python slice `[start:stop:step]` over a
sequence of length `len`, following `PySlice_AdjustIndices`. -/
def sliceIndices (len start stop step : Int) : List Int :=
  if step = 0 then []
  else if 0 < step then
    let s := if start < 0 then max (start + len) 0 else min start len
    let e := if stop < 0 then max (stop + len) 0 else min stop len
    let cnt := ((e - s).toNat + step.toNat - 1) / step.toNat
    (List.range cnt).map (fun (k : Nat) => s + (k : Int) * step)
  else
    let s := if start < 0 then max (start + len) (-1) else min start (len - 1)
    let e := if stop < 0 then max (stop + len) (-1) else min stop (len - 1)
    let cnt := ((s - e).toNat + (-step).toNat - 1) / (-step).toNat
    (List.range cnt).map (fun (k : Nat) => s + (k : Int) * step)

/-- Python positional slicing `xs[start:stop:step]`. -/
def pySlice {α : Type} (xs : List α) (start stop step : Int) : List α :=
  (sliceIndices xs.length start stop step).filterMap (fun i => xs.get? i.toNat)

/-! ### `uniformat.py`: header-property parsing and construction -/

/-- Python `str.strip("[]")`: remove the bracket characters from both ends. -/
def pyStripBrackets (s : String) : String :=
  String.mk (((s.data.dropWhile (fun c => c = '[' ∨ c = ']')).reverse.dropWhile
    (fun c => c = '[' ∨ c = ']')).reverse)

/-- Python `key.startswith("[")`. -/
def startsWithBracket (s : String) : Bool :=
  match s.data with
  | [] => false
  | c :: _ => c = '['

/-- A value stored in the header dictionary: the two body sentinels store
integer line offsets, other keys store a scalar string or a list of strings. -/
inductive PropValue where
  | offset (n : Int)
  | scalar (s : String)
  | listVal (l : List String)
deriving DecidableEq, Repr

/-- The header dictionary, as an insertion-ordered association list with
unique keys (Python `dict`). -/
abbrev PropDict := List (String × PropValue)

/-- Python `d.update({k: v})`: replace in place if the key is present,
append otherwise. -/
def dictUpdate (d : PropDict) (k : String) (v : PropValue) : PropDict :=
  if d.any (fun p => p.1 = k) then
    d.map (fun p => if p.1 = k then (k, v) else p)
  else
    d ++ [(k, v)]

/-- Python `d[k]` / `d.get(k)`. -/
def dictFind (d : PropDict) (k : String) : Option PropValue :=
  (d.find? (fun p => p.1 = k)).map (fun p => p.2)

/-- Python `d.keys()` in insertion order. -/
def dictKeys (d : PropDict) : List String := d.map (fun p => p.1)

/-- One iteration of the loop in `UNIBaseParser._parse_properties`
(`uniformat.py` lines 135-161), acting on the enumerated line `(i, line)`. -/
def parse_properties_step (d : PropDict) (p : Nat × List String) : PropDict :=
  match p.2 with
  | [] => d
  | key :: rest =>
    if ¬ startsWithBracket key then d
    else
      let k := pyStripBrackets key
      if k = "Body Start" then dictUpdate d k (.offset ((p.1 : Int) + 1))
      else if k = "Body End" then dictUpdate d k (.offset ((p.1 : Int) - 1))
      else
        match rest.filter (fun elem => elem ≠ "") with
        | [v] => dictUpdate d k (.scalar v)
        | [] => d
        | vs => dictUpdate d k (.listVal vs)

/-- `UNIBaseParser._parse_properties`: fold the per-line step over the
enumerated raw lines, starting from the empty dict. -/
def parse_properties (raw : List (List String)) : PropDict :=
  raw.enum.foldl parse_properties_step []

/-- The two construction failures of `UNIBaseParser.__init__`:
`EmptyFileException` and the `ParserError` raised when a body sentinel is
missing. -/
inductive InitError where
  | emptyFile
  | missingBodyMarkers
deriving DecidableEq, Repr

/-- State of a successfully constructed `UNIBaseParser`: the (possibly
filtered) raw lines, the property dict, and the two body offsets. -/
structure UNIState where
  raw : List (List String)
  dict : PropDict
  body_start_line : Int
  body_end_line : Int
deriving DecidableEq, Repr

/-- The CONTRACT-INFO filter in `UNIBaseParser.__init__` (lines 44-51):
drop every line having a field equal to `CONTRACT-INFO`. -/
def removeContractInfoLines (raw : List (List String)) : List (List String) :=
  raw.filter (fun line => ¬ line.contains "CONTRACT-INFO")

/-- `UNIBaseParser.__init__` (`uniformat.py` lines 40-67): optionally filter
CONTRACT-INFO lines, fail on an empty line list, parse the properties, and
fail unless both body sentinels were found. -/
def uniInit (raw : List (List String)) (remove_contract_info_lines : Bool) :
    Except InitError UNIState :=
  let r := if remove_contract_info_lines then removeContractInfoLines raw else raw
  if r = [] then .error .emptyFile
  else
    let d := parse_properties r
    match dictFind d "Body Start", dictFind d "Body End" with
    | some (.offset bs), some (.offset be) => .ok ⟨r, d, bs, be⟩
    | _, _ => .error .missingBodyMarkers

/-- `UNIBaseParser.properties`: the key set of the dict. -/
def uniProperties (s : UNIState) : List String := dictKeys s.dict

/-! ### `mig.py`: the MIG-91 family row-to-series builder -/

/-- A decoded MIG body row, positionally: `cells.get? 0` is `Start`,
`1` is `End`, `2` `AccessEAN`, `3` `Serial`, `4` `CounterID`,
`5` `EnergyType`, `6` `Direction`, `7` `Unit`, `209` `Interval`,
`210` `Description` (per `Mig3Export91Parser.column_names`). -/
abbrev Row := List PyVal

/-- `row.Start` as a defined timestamp, if the cell is one. -/
def rowStart (r : Row) : Option Int :=
  match r.get? 0 with
  | some (.time t) => t
  | _ => none

/-- `row.End` as a defined timestamp, if the cell is one. -/
def rowEnd (r : Row) : Option Int :=
  match r.get? 1 with
  | some (.time t) => t
  | _ => none

/-- `row["Interval"]` (column 209, dtype int), if the cell is a
defined integer (`pd.isna` otherwise). -/
def rowInterval (r : Row) : Option Int :=
  match r.get? 209 with
  | some (.intg n) => n
  | _ => none

/-- `pd.date_range(start, end, freq=f"{L}min", inclusive="right")`:
the timestamps `start + L, start + 2L, …` up to and including `end`
(empty when the span is shorter than one interval). -/
def dateRangeRight (s e L : Int) : List Int :=
  if L ≤ 0 then []
  else (List.range ((e - s).toNat / L.toNat)).map
    (fun (k : Nat) => s + ((k : Int) + 1) * L)

/-- `int(5 - (60 / interval))`: float division then truncation toward zero,
i.e. the truncated quotient `(5L - 60) / L`. -/
def migStep (L : Int) : Int := Int.tdiv (5 * L - 60) L

/-- The value-block slice of `_parse_row_to_timeseries`
(`row[start_slice : start_slice + len(index) * step : step]`). -/
def valueBlock (r : Row) (L : Int) (n : Nat) : List PyVal :=
  let step := migStep L
  let start_slice := 9 + step - 1
  pySlice r start_slice (start_slice + n * step) step

/-- The quality-code-block slice of `_parse_row_to_timeseries`
(the same slice, shifted right by 100 columns). -/
def qualityBlock (r : Row) (L : Int) (n : Nat) : List PyVal :=
  let step := migStep L
  let start_slice := 9 + step - 1
  pySlice r (start_slice + 100) (start_slice + 100 + n * step) step

/-- The masking multiply `values * quality_codes.map(NaN if code == "?" else 1)`:
positions whose quality code is the `?` sentinel become NaN, all others keep
their value. -/
def maskValues (vals quals : List PyVal) : List PyVal :=
  vals.zipWith (fun v q => if q = PyVal.str "?" then PyVal.num none else v) quals

/-- The metadata tuple shared by the value and quality columns
(AccessEAN, Description, Serial, Direction, CounterID, EnergyType, Unit). -/
def rowMeta (r : Row) : List PyVal :=
  [r.getD 2 (.num none), r.getD 210 (.num none), r.getD 3 (.num none),
   r.getD 6 (.num none), r.getD 4 (.num none), r.getD 5 (.num none),
   r.getD 7 (.num none)]

/-- The two-column frame built from one row: a shared right-closed index,
the masked value series, and the untouched quality series. -/
structure RowTS where
  index : List Int
  values : List PyVal
  quality : List PyVal
  meta : List PyVal
deriving DecidableEq, Repr

/-- `Mig3Export91Parser._parse_row_to_timeseries` (`mig.py` lines 135-201),
at the default `index_shift="right"`.  An undefined interval yields the empty
frame; an undefined `Start`/`End` or a slice whose length does not match the
index raises (pandas `ValueError`). -/
def parse_row_to_timeseries (r : Row) : Except String RowTS :=
  match rowInterval r with
  | none => .ok ⟨[], [], [], rowMeta r⟩
  | some L =>
    match rowStart r, rowEnd r with
    | some s, some e =>
      if L ≤ 0 then .error "ValueError"
      else
        let index := dateRangeRight s e L
        let vals := valueBlock r L index.length
        let quals := qualityBlock r L index.length
        if vals.length = index.length then
          if quals.length = index.length then
            .ok ⟨index, maskValues vals quals, quals, rowMeta r⟩
          else .error "ValueError"
        else .error "ValueError"
    | _, _ => .error "ValueError"

/-! ### `mig.py`: body decoding and the grouped assembler -/

/-- The body lines selected by `MigParser._parse_dataframe`'s
`skiprows=self.body_start_line` and
`skipfooter=len(self.raw) - self.body_end_line - 1`: the raw lines from
`body_start_line` through `body_end_line` inclusive. -/
def bodyLines (raw : List (List String)) (bs be : Int) : List (List String) :=
  (raw.drop bs.toNat).take (be + 1 - bs).toNat

/-- Helper for `dropDuplicates`: keep elements not seen before. -/
def dropDuplicatesAux {α : Type} [DecidableEq α] : List α → List α → List α
  | _, [] => []
  | seen, x :: xs =>
    if x ∈ seen then dropDuplicatesAux seen xs
    else x :: dropDuplicatesAux (x :: seen) xs

/-- `df.drop_duplicates()`: keep the first occurrence of each row. -/
def dropDuplicates {α : Type} [DecidableEq α] (l : List α) : List α :=
  dropDuplicatesAux [] l

/-- `MigParser._parse_dataframe` (`mig.py` lines 46-68) at line granularity:
select the body lines and drop duplicate rows.  The pandas cell typing,
renaming and timezone localisation act within each line and are not modelled
here. -/
def mig_parse_dataframe_lines (raw : List (List String)) (bs be : Int) :
    List (List String) :=
  dropDuplicates (bodyLines raw bs be)

/-- State of a constructed `MigParser`, for the `get_dataframe` caching
logic: the raw lines, body offsets, and the `self.df` cache slot that
`__init__` sets to `None`. -/
structure MigState where
  raw : List (List String)
  body_start_line : Int
  body_end_line : Int
  df : Option (List (List String))
deriving DecidableEq, Repr

/-- `MigParser` construction: `UNIBaseParser.__init__` followed by
`self.df = None`. -/
def migInit (raw : List (List String)) (remove_contract_info_lines : Bool) :
    Except InitError MigState :=
  (uniInit raw remove_contract_info_lines).map
    (fun s => ⟨s.raw, s.body_start_line, s.body_end_line, none⟩)

/-- `UNIBaseParser.get_dataframe` (`uniformat.py` lines 165-174): return the
cached `self.df` if it is not `None`, otherwise return
`self._parse_dataframe()`.  The result triple is (returned frame, state after
the call, whether `_parse_dataframe` ran).  Note the source never assigns the
result to `self.df`, so the state is returned unchanged on the parse path. -/
def get_dataframe (s : MigState) : (List (List String)) × MigState × Bool :=
  match s.df with
  | some df => (df, s, false)
  | none => (mig_parse_dataframe_lines s.raw s.body_start_line s.body_end_line,
             s, true)

/-- The grouping key of `Mig3Export91Parser.get_timeseries_frame`:
`(AccessEAN, EnergyType, Unit, Serial)` (columns 2, 5, 7, 3). -/
def groupKey (r : Row) : PyVal × PyVal × PyVal × PyVal :=
  (r.getD 2 (.num none), r.getD 5 (.num none), r.getD 7 (.num none),
   r.getD 3 (.num none))

/-- Sequence a list of fallible computations, propagating the first error
(a Python generator consumed by a list comprehension). -/
def seqExcept {ε α : Type} : List (Except ε α) → Except ε (List α)
  | [] => .ok []
  | x :: xs =>
    match x with
    | .error e => .error e
    | .ok a =>
      match seqExcept xs with
      | .error e => .error e
      | .ok l => .ok (a :: l)

/-- One group's stacked column in `Mig3Export91Parser.get_timeseries_frame`
(lines 116-129): the group's rows in original order, each parsed to a frame,
with empty frames dropped; `pd.concat` then stacks the survivors in order. -/
def parsedGroup (rows : List Row) (k : PyVal × PyVal × PyVal × PyVal) :
    Except String (List RowTS) :=
  (seqExcept ((rows.filter (fun r => groupKey r = k)).map
      parse_row_to_timeseries)).map
    (fun l => l.filter (fun t => t.index ≠ []))

/-- The distinct group keys of the decoded rows (pandas `groupby` visits
each key once; its sorted visiting order is irrelevant to the table's
contents). -/
def groupKeys (rows : List Row) : List (PyVal × PyVal × PyVal × PyVal) :=
  dropDuplicates (rows.map groupKey)

/-- `Mig3Export91Parser.get_timeseries_frame` (lines 111-133) as the
collection of per-group stacked columns: groups whose parsed rows are all
empty are skipped; a final `pd.concat` over no columns at all raises. -/
def mig_timeseries_table (rows : List Row) :
    Except String (List ((PyVal × PyVal × PyVal × PyVal) × List RowTS)) :=
  match seqExcept ((groupKeys rows).map
      (fun k => (parsedGroup rows k).map (fun c => (k, c)))) with
  | .error e => .error e
  | .ok cols =>
    match cols.filter (fun c => c.2 ≠ []) with
    | [] => .error "ValueError"
    | cs => .ok cs

/-! ### `twowire.py`: probe-and-fallback layout detection -/

/-- The exception classes relevant to `TwoWireMMRParser._parse_dataframe`:
the `except ValueError` clause catches exactly `valueError`. -/
inductive PyExn where
  | valueError
  | otherError
deriving DecidableEq, Repr

/-- `TwoWireMMRParser._parse_dataframe` (`twowire.py` lines 154-189).
`short` and `long` are the outcomes of the two `self._pandas_read`
probes (pandas runs outside the repository, so its outcome per layout is a
parameter); `marker` is the current `self.is_long_format` (set to `False`
by `__init__`).  The result is (frame or propagated exception, marker after
the call, whether the long layout was attempted). -/
def mmr_parse_dataframe {α : Type} (short long : Except PyExn α)
    (marker : Bool) : (Except PyExn α) × Bool × Bool :=
  match short with
  | .ok df => (.ok df, marker, false)
  | .error e =>
    match e with
    | .valueError =>
      match long with
      | .ok df => (.ok df, true, true)
      | .error e2 => (.error e2, marker, true)
    | .otherError => (.error .otherError, marker, false)

/-! ### `twowire.py`: the transposed series builder -/

/-- `pd.date_range(start, end, freq)` with both ends included:
`s, s + f, s + 2f, …` up to and including `e` (two-wire timestamps are
rationals so that count-derived spacing stays exact). -/
def dateRangeBoth (s e f : ℚ) : List ℚ :=
  if f ≤ 0 ∨ e < s then []
  else (List.range ((Rat.floor ((e - s) / f)).toNat + 1)).map
    (fun (k : Nat) => s + (k : ℚ) * f)

/-- `misc.date_range(start, end, periods)` (the evenly-spaced fallback in
`misc.py` lines 51-74): with a nonzero period count it divides the span in
`periods - 1` equal steps (`ZeroDivisionError` for one period, a pandas
error for a non-increasing frequency); `periods == 0` is falsy in Python, so
the call falls through to `pd.date_range` with zero periods, an empty
index. -/
def misc_date_range (s e : ℚ) (periods : Nat) : Except String (List ℚ) :=
  if periods ≠ 0 then
    if periods = 1 then .error "ZeroDivisionError"
    else
      let f := (e - s) / ((periods : ℚ) - 1)
      if f ≤ 0 then .error "ValueError" else .ok (dateRangeBoth s e f)
  else .ok []

/-- Helper for `dedupByName`: keep rows whose name was not seen before. -/
def dedupByNameAux (seen : List String) :
    List (String × List PyVal) → List (String × List PyVal)
  | [] => []
  | d :: ds =>
    if d.1 ∈ seen then dedupByNameAux seen ds
    else d :: dedupByNameAux (d.1 :: seen) ds

/-- The `drop_duplicates(subset='Name')` step: keep the first row for each
device name. -/
def dedupByName (devices : List (String × List PyVal)) :
    List (String × List PyVal) :=
  dedupByNameAux [] devices

/-- `vals.T`: the value block of the decoded two-wire frame (one entry per
device: name and the `w` selected value columns), transposed to one row per
reading position. -/
def transposeVals (devices : List (String × List PyVal)) (w : Nat) :
    List (List PyVal) :=
  (List.range w).map (fun j => devices.filterMap (fun d => d.2.get? j))

/-- The value rows of `TwoWireParser.get_timeseries_frame` just before the
index is attached: optionally de-duplicate device names, transpose the
selected value block, and drop every transposed row containing a missing
value (`vals.dropna()`). -/
def twValueRows (devices : List (String × List PyVal)) (w : Nat)
    (allow_duplicate_names : Bool) : List (List PyVal) :=
  (transposeVals
    (if allow_duplicate_names then devices else dedupByName devices) w).filter
    (fun row => ¬ row.any PyVal.isNA)

/-- `TwoWireParser.get_timeseries_frame` (`twowire.py` lines 52-87):
select the value block, optionally de-duplicate device names, transpose,
drop every transposed row containing a missing value, build the timestamp
index (declared interval, or count-derived from the number of rows that
survived the drop), and attach it (pandas raises when the lengths
differ). -/
def tw_get_timeseries_frame (devices : List (String × List PyVal)) (w : Nat)
    (s e : ℚ) (interval : Option ℚ) (allow_duplicate_names : Bool) :
    Except String (List (ℚ × List PyVal)) :=
  match interval with
  | some f =>
    if f ≤ 0 then .error "ValueError"
    else
      if (dateRangeBoth s e f).length
          = (twValueRows devices w allow_duplicate_names).length
      then .ok ((dateRangeBoth s e f).zip
        (twValueRows devices w allow_duplicate_names))
      else .error "ValueError"
  | none =>
    match misc_date_range s e
        (twValueRows devices w allow_duplicate_names).length with
    | .error err => .error err
    | .ok idx =>
      if idx.length = (twValueRows devices w allow_duplicate_names).length
      then .ok (idx.zip (twValueRows devices w allow_duplicate_names))
      else .error "ValueError"

/-- `df.last_valid_index()` on the assembled frame: the label of the last
row holding at least one non-missing value. -/
def lastValidIndex (frame : List (ℚ × List PyVal)) : Option ℚ :=
  ((frame.filter (fun r => r.2.any (fun v => ¬ v.isNA))).getLast?).map
    (fun r => r.1)

/-- `TwoWireAMRParser.get_timeseries_frame` (`twowire.py` lines 229-232):
the base frame with `df.drop(df.last_valid_index())` applied (dropping a
`None` label raises). -/
def amr_get_timeseries_frame (devices : List (String × List PyVal)) (w : Nat)
    (s e : ℚ) (interval : Option ℚ) (allow_duplicate_names : Bool) :
    Except String (List (ℚ × List PyVal)) :=
  match tw_get_timeseries_frame devices w s e interval allow_duplicate_names with
  | .error err => .error err
  | .ok frame =>
    match lastValidIndex frame with
    | none => .error "KeyError"
    | some lbl => .ok (frame.filter (fun r => r.1 ≠ lbl))

deriving instance DecidableEq for Except

/-- Whether the property-parsing loop stores a key `k` for a given line:
the line's first field must be bracket-wrapped and strip to `k`, and `k` is
either one of the two body sentinels or is accompanied by at least one
non-empty value field. -/
def addsKey (line : List String) (k : String) : Bool :=
  match line with
  | [] => false
  | key :: rest =>
    startsWithBracket key && (pyStripBrackets key == k) &&
      (k == "Body Start" || k == "Body End" ||
        ¬ rest.filter (fun elem => elem ≠ "") = [])

/-- The values the parsing loop can store under a body-sentinel key. -/
def isOffsetOpt : Option PropValue → Prop
  | none => True
  | some (.offset _) => True
  | some _ => False

/-- The key set described by the specification's C4 sentence, stated from
the spec's words for comparison: all stripped bracket keys, minus the two
body sentinels. -/
def claimedKeysC4 (raw : List (List String)) : List String :=
  (raw.filterMap (fun line =>
    match line with
    | [] => none
    | key :: _ =>
      if startsWithBracket key then some (pyStripBrackets key) else none)).filter
    (fun k => k ≠ "Body Start" ∧ k ≠ "Body End")

/-- A small valid header block: a property line, both sentinels, one body
line. -/
def exHeader : List (List String) :=
  [["[Time zone]", "+0100"], ["[Body Start]"], ["d", "1"], ["[Body End]"]]

/-- The parser state produced from `exHeader`. -/
def exHeaderState : UNIState :=
  ⟨exHeader, parse_properties exHeader, 2, 2⟩

/-- A one-line input whose only line is a CONTRACT-INFO line. -/
def exContract : List (List String) := [["x", "CONTRACT-INFO"]]

/-- A header block with a CONTRACT-INFO line between properties. -/
def exC9Input : List (List String) :=
  [["[Time zone]", "+0100"], ["y", "CONTRACT-INFO"], ["[Body Start]"],
   ["d", "1"], ["[Body End]"]]

/-- A MIG-91 row of the standard 217-column shape: a 24-hour window at
15-minute granularity, qualities `A` except a `?` at the second reading. -/
def wRowC1 : Row :=
  (List.range 217).map (fun i =>
    if i = 0 then PyVal.time (some 0)
    else if i = 1 then PyVal.time (some 1440)
    else if i = 209 then PyVal.intg (some 15)
    else if i = 110 then PyVal.str "?"
    else if 109 ≤ i ∧ i ≤ 208 then PyVal.str "A"
    else PyVal.str "v")

/-- A MIG-91 row of the standard 217-column shape declaring a 5-minute
interval over a 10-minute window. -/
def cRowC2 : Row :=
  (List.range 217).map (fun i =>
    if i = 0 then PyVal.time (some 0)
    else if i = 1 then PyVal.time (some 10)
    else if i = 209 then PyVal.intg (some 5)
    else PyVal.str "v")

/-- A small MIG file: header, two identical body lines, a distinct one. -/
def exMigInput : List (List String) :=
  [["[Time zone]", "+0100"], ["[Body Start]"], ["a", "1"], ["a", "1"],
   ["b", "2"], ["[Body End]"]]

/-- The `MigParser` state constructed from `exMigInput` (`self.df = None`). -/
def exMigState : MigState := ⟨exMigInput, 2, 4, none⟩

/-- A 210-column MIG-91 row: one 15-minute reading `10` over `(0, 15]`. -/
def wRowC7a : Row :=
  (List.range 210).map (fun i =>
    if i = 0 then PyVal.time (some 0)
    else if i = 1 then PyVal.time (some 15)
    else if i = 209 then PyVal.intg (some 15)
    else if i = 9 then PyVal.str "10"
    else if i = 109 then PyVal.str "A"
    else PyVal.str "m")

/-- Like `wRowC7a` with the same device key and window but reading `20`. -/
def wRowC7b : Row :=
  (List.range 210).map (fun i =>
    if i = 0 then PyVal.time (some 0)
    else if i = 1 then PyVal.time (some 15)
    else if i = 209 then PyVal.intg (some 15)
    else if i = 9 then PyVal.str "20"
    else if i = 109 then PyVal.str "A"
    else PyVal.str "m")

/-- The interval series built from `wRowC7a`. -/
def wTS7a : RowTS := ⟨[15], [PyVal.str "10"], [PyVal.str "A"], rowMeta wRowC7a⟩

/-- The interval series built from `wRowC7b`. -/
def wTS7b : RowTS := ⟨[15], [PyVal.str "20"], [PyVal.str "A"], rowMeta wRowC7b⟩

/-- The time-series table assembled from the two overlapping rows. -/
def wTableC7 : List ((PyVal × PyVal × PyVal × PyVal) × List RowTS) :=
  [(groupKey wRowC7a, [wTS7a, wTS7b])]

/-- A MIG-91 row of the standard 217-column shape declaring a 10-minute
interval over a 24-hour window. -/
def cRowC2b : Row :=
  (List.range 217).map (fun i =>
    if i = 0 then PyVal.time (some 0)
    else if i = 1 then PyVal.time (some 1440)
    else if i = 209 then PyVal.intg (some 10)
    else PyVal.str "v")

/-- A valid header block with one scalar property, one value-less bracket
key, and both sentinels. -/
def exHeaderC4 : List (List String) :=
  [["[Time zone]", "+0100"], ["[Empty]"], ["[Body Start]"], ["d", "1"],
   ["[Body End]"]]

/-- The parser state produced from `exHeaderC4`. -/
def exHeaderC4State : UNIState :=
  ⟨exHeaderC4, parse_properties exHeaderC4, 3, 3⟩

/-! ### Generic list helpers -/

theorem filterMap_eq_map_of_some {α β : Type} {f : α → Option β} {g : α → β} :
    ∀ {l : List α}, (∀ x ∈ l, f x = some (g x)) → l.filterMap f = l.map g
  | [], _ => rfl
  | x :: xs, h => by
    have hx := h x (List.mem_cons_self x xs)
    simp only [List.filterMap_cons, hx, List.map_cons]
    exact congrArg _ (filterMap_eq_map_of_some (fun y hy => h y (List.mem_cons_of_mem x hy)))

theorem zipWith_map_same {α β γ δ : Type} (f : β → γ → δ) (g : α → β) (h : α → γ) :
    ∀ (l : List α), List.zipWith f (l.map g) (l.map h) = l.map (fun x => f (g x) (h x))
  | [] => rfl
  | x :: xs => by
    simp only [List.map_cons, List.zipWith_cons_cons]
    exact congrArg _ (zipWith_map_same f g h xs)

theorem get?_eq_some_getD {α : Type} (xs : List α) (d : α) (i : Nat)
    (h : i < xs.length) : xs.get? i = some (xs.getD i d) := by
  rw [List.getD_eq_get?, List.get?_eq_get h]
  rfl

/-- A positive-stride in-bounds Python slice `xs[a : a + n*σ : σ]` takes
exactly the `n` elements at positions `a, a + σ, …`. -/
theorem pySlice_pos {α : Type} (xs : List α) (d : α) (a n σ : Nat) (hσ : 0 < σ)
    (hb : a + n * σ ≤ xs.length) :
    pySlice xs (a : Int) (((a + n * σ : Nat) : Int)) (σ : Int)
      = (List.range n).map (fun k => xs.getD (a + k * σ) d) := by
  have hσz : ¬ ((σ : Int) = 0) := by exact_mod_cast Nat.pos_iff_ne_zero.mp hσ
  have hσp : (0 : Int) < σ := by exact_mod_cast hσ
  have hstart : ¬ ((a : Int) < 0) := not_lt.mpr (Int.natCast_nonneg _)
  have hstop : ¬ (((a + n * σ : Nat) : Int) < 0) := not_lt.mpr (Int.natCast_nonneg _)
  have hlen : (a : Int) ≤ (xs.length : Int) := by
    have : a ≤ xs.length := le_trans (Nat.le_add_right _ _) hb
    exact_mod_cast this
  have hlen2 : ((a + n * σ : Nat) : Int) ≤ (xs.length : Int) := by exact_mod_cast hb
  simp only [pySlice, sliceIndices, if_neg hσz, if_pos hσp, if_neg hstart,
    if_neg hstop, min_eq_left hlen, min_eq_left hlen2]
  have hdiff : (((a + n * σ : Nat) : Int) - (a : Int)) = ((n * σ : Nat) : Int) := by
    push_cast; ring
  rw [hdiff, Int.toNat_natCast, Int.toNat_natCast]
  have hcnt : (n * σ + σ - 1) / σ = n := by
    have h1 : n * σ + σ - 1 = σ * n + (σ - 1) := by
      cases σ with
      | zero => exact absurd hσ (lt_irrefl 0)
      | succ m => ring_nf; omega
    rw [h1, Nat.mul_add_div hσ, Nat.div_eq_of_lt (by omega)]
    omega
  rw [hcnt]
  simp only [List.filterMap_map]
  apply filterMap_eq_map_of_some
  intro k hk
  have hk' : k < n := List.mem_range.mp hk
  have hcast : (((a : Int) + (k : Int) * (σ : Int))).toNat = a + k * σ := by
    have : ((a : Int) + (k : Int) * (σ : Int)) = ((a + k * σ : Nat) : Int) := by
      push_cast; ring
    rw [this, Int.toNat_natCast]
  have hin : a + k * σ < xs.length := by
    have hmul : k * σ < n * σ := (Nat.mul_lt_mul_right hσ).mpr hk'
    omega
  simp only [Function.comp]
  rw [hcast]
  exact get?_eq_some_getD xs d _ hin

/-- A negative-stride Python slice `xs[a : a - n*σ : -σ]` whose stop is
still non-negative takes exactly the `n` elements at the descending
positions `a, a - σ, …`. -/
theorem pySlice_neg {α : Type} (xs : List α) (d : α) (a n σ : Nat)
    (hσ : 0 < σ) (hstop : n * σ ≤ a) (hstart : a < xs.length) :
    pySlice xs (a : Int) ((a : Int) - (n : Int) * ((σ : Nat) : Int))
        (-((σ : Nat) : Int))
      = (List.range n).map (fun k => xs.getD (a - k * σ) d) := by
  have hσz : ¬ ((-((σ : Nat) : Int)) = 0) := by
    simp only [neg_eq_zero]
    exact_mod_cast Nat.pos_iff_ne_zero.mp hσ
  have hσp : ¬ ((0 : Int) < -((σ : Nat) : Int)) := by
    simp only [not_lt, Left.neg_nonpos_iff]
    exact_mod_cast Nat.zero_le σ
  have hcast : ((n : Nat) : Int) * ((σ : Nat) : Int) = ((n * σ : Nat) : Int) := by
    push_cast
    ring
  have hstart' : ¬ ((a : Int) < 0) := not_lt.mpr (Int.natCast_nonneg _)
  have hstop' : ¬ ((a : Int) - ((n * σ : Nat) : Int) < 0) := by
    have h1 : ((n * σ : Nat) : Int) ≤ (a : Int) := by exact_mod_cast hstop
    omega
  have hlenA : (a : Int) ≤ (xs.length : Int) - 1 := by
    have : (a : Int) < (xs.length : Int) := by exact_mod_cast hstart
    omega
  have hlenE : (a : Int) - ((n * σ : Nat) : Int) ≤ (xs.length : Int) - 1 := by
    have h1 : (0 : Int) ≤ ((n * σ : Nat) : Int) := Int.natCast_nonneg _
    omega
  simp only [pySlice, sliceIndices, if_neg hσz, if_neg hσp, hcast,
    if_neg hstart', if_neg hstop', min_eq_left hlenA, min_eq_left hlenE]
  have hdiff : ((a : Int) - ((a : Int) - ((n * σ : Nat) : Int)))
      = ((n * σ : Nat) : Int) := by ring
  rw [hdiff, Int.toNat_natCast, neg_neg, Int.toNat_natCast]
  have hcnt : (n * σ + σ - 1) / σ = n := by
    have h1 : n * σ + σ - 1 = σ * n + (σ - 1) := by
      cases σ with
      | zero => exact absurd hσ (lt_irrefl 0)
      | succ m => ring_nf; omega
    rw [h1, Nat.mul_add_div hσ, Nat.div_eq_of_lt (by omega)]
    omega
  rw [hcnt]
  simp only [List.filterMap_map]
  apply filterMap_eq_map_of_some
  intro k hk
  have hk' : k < n := List.mem_range.mp hk
  have hks : k * σ ≤ a := by
    have h1 : k * σ ≤ n * σ := Nat.mul_le_mul_right σ (le_of_lt hk')
    omega
  have hcast2 : ((a : Int) + (k : Int) * (-((σ : Nat) : Int)))
      = ((a - k * σ : Nat) : Int) := by
    push_cast [Nat.cast_sub hks]
    ring
  simp only [Function.comp]
  rw [hcast2, Int.toNat_natCast]
  exact get?_eq_some_getD xs d _ (by omega)

/-! ### Lemmas about the header dictionary -/

theorem dictKeys_dictUpdate (d : PropDict) (k : String) (v : PropValue)
    (k' : String) :
    k' ∈ dictKeys (dictUpdate d k v) ↔ k' ∈ dictKeys d ∨ k' = k := by
  unfold dictUpdate
  by_cases h : d.any (fun p => p.1 = k)
  · rw [if_pos h]
    have hkeys : dictKeys (d.map (fun p => if p.1 = k then (k, v) else p))
        = dictKeys d := by
      unfold dictKeys
      rw [List.map_map]
      apply List.map_congr_left
      intro p _
      by_cases hp : p.1 = k
      · simp [hp]
      · simp [hp]
    rw [hkeys]
    constructor
    · exact Or.inl
    · rintro (hm | rfl)
      · exact hm
      · obtain ⟨p, hp, hpk⟩ := List.any_eq_true.mp h
        have : p.1 ∈ dictKeys d := List.mem_map_of_mem _ hp
        rwa [of_decide_eq_true hpk] at this
  · rw [if_neg h]
    unfold dictKeys
    simp

theorem mem_dictKeys_step (d : PropDict) (p : Nat × List String) (k : String) :
    k ∈ dictKeys (parse_properties_step d p) ↔
      k ∈ dictKeys d ∨ addsKey p.2 k = true := by
  obtain ⟨i, line⟩ := p
  unfold parse_properties_step addsKey
  cases line with
  | nil => simp
  | cons key rest =>
    simp only
    by_cases hsw : startsWithBracket key
    · rw [if_neg (by simp [hsw])]
      by_cases hbs : pyStripBrackets key = "Body Start"
      · rw [if_pos hbs, dictKeys_dictUpdate]
        by_cases hk : pyStripBrackets key = k
        · subst hk
          simp [hsw, hbs]
        · simp [hsw, hk, Ne.symm hk]
      · rw [if_neg hbs]
        by_cases hbe : pyStripBrackets key = "Body End"
        · rw [if_pos hbe, dictKeys_dictUpdate]
          by_cases hk : pyStripBrackets key = k
          · subst hk
            simp [hsw, hbe]
          · simp [hsw, hk, Ne.symm hk]
        · rw [if_neg hbe]
          rcases hval : rest.filter (fun elem => elem ≠ "") with _ | ⟨v, vs⟩
          · by_cases hk : pyStripBrackets key = k
            · subst hk
              simp [hsw, hval, hbs, hbe]
            · simp [hsw, hk, hval]
          · rcases vs with _ | ⟨v2, vs2⟩
            · rw [dictKeys_dictUpdate]
              by_cases hk : pyStripBrackets key = k
              · subst hk
                simp [hsw, hval]
              · simp [hsw, hk, Ne.symm hk, hval]
            · rw [dictKeys_dictUpdate]
              by_cases hk : pyStripBrackets key = k
              · subst hk
                simp [hsw, hval]
              · simp [hsw, hk, Ne.symm hk, hval]
    · rw [if_pos (by simp [hsw])]
      simp [hsw]

theorem mem_dictKeys_foldl (l : List (Nat × List String)) (d : PropDict)
    (k : String) :
    k ∈ dictKeys (l.foldl parse_properties_step d) ↔
      k ∈ dictKeys d ∨ ∃ p ∈ l, addsKey p.2 k = true := by
  induction l generalizing d with
  | nil => simp
  | cons p l ih =>
    rw [List.foldl_cons, ih, mem_dictKeys_step]
    constructor
    · rintro ((h | h) | ⟨q, hq, hqk⟩)
      · exact Or.inl h
      · exact Or.inr ⟨p, List.mem_cons_self _ _, h⟩
      · exact Or.inr ⟨q, List.mem_cons_of_mem _ hq, hqk⟩
    · rintro (h | ⟨q, hq, hqk⟩)
      · exact Or.inl (Or.inl h)
      · rcases List.mem_cons.mp hq with rfl | hq'
        · exact Or.inl (Or.inr hqk)
        · exact Or.inr ⟨q, hq', hqk⟩

/-- Key-set characterisation of `_parse_properties`: a key is returned iff
some input line stores it. -/
theorem mem_parse_properties (raw : List (List String)) (k : String) :
    k ∈ dictKeys (parse_properties raw) ↔ ∃ line ∈ raw, addsKey line k = true := by
  unfold parse_properties
  rw [mem_dictKeys_foldl]
  simp only [dictKeys, List.map_nil, List.not_mem_nil, false_or]
  constructor
  · rintro ⟨p, hp, hpk⟩
    refine ⟨p.2, ?_, hpk⟩
    have := List.mem_map_of_mem Prod.snd hp
    rwa [List.enum_map_snd] at this
  · rintro ⟨line, hline, hlk⟩
    have : line ∈ raw.enum.map Prod.snd := by rwa [List.enum_map_snd]
    obtain ⟨p, hp, hpl⟩ := List.mem_map.mp this
    exact ⟨p, hp, hpl ▸ hlk⟩

theorem dictFind_cons (p : String × PropValue) (d : PropDict) (k' : String) :
    dictFind (p :: d) k' = if p.1 = k' then some p.2 else dictFind d k' := by
  unfold dictFind
  by_cases h : p.1 = k'
  · rw [List.find?_cons_of_pos _ (by simp [h]), if_pos h]
    rfl
  · rw [List.find?_cons_of_neg _ (by simp [h]), if_neg h]

theorem dictFind_mapReplace (k' k : String) (v : PropValue) (hne : k' ≠ k) :
    ∀ (d : PropDict),
      dictFind (d.map (fun p => if p.1 = k then (k, v) else p)) k'
        = dictFind d k'
  | [] => rfl
  | p :: ds => by
    by_cases hp : p.1 = k
    · rw [List.map_cons, if_pos hp, dictFind_cons, dictFind_cons,
        if_neg (fun h => hne h.symm), if_neg (fun h => hne (hp ▸ h).symm)]
      exact dictFind_mapReplace k' k v hne ds
    · rw [List.map_cons, if_neg hp, dictFind_cons, dictFind_cons]
      by_cases hq : p.1 = k'
      · rw [if_pos hq, if_pos hq]
      · rw [if_neg hq, if_neg hq]
        exact dictFind_mapReplace k' k v hne ds

theorem dictFind_dictUpdate (k : String) (v : PropValue) (k' : String) :
    ∀ (d : PropDict),
      dictFind (dictUpdate d k v) k' = if k' = k then some v else dictFind d k'
  | [] => by
    by_cases h : k' = k
    · simp [dictUpdate, dictFind, h]
    · simp [dictUpdate, dictFind, h, Ne.symm h]
  | p :: ds => by
    unfold dictUpdate
    by_cases hany : (p :: ds).any (fun q => q.1 = k)
    · rw [if_pos hany]
      by_cases hp : p.1 = k
      · rw [List.map_cons, if_pos hp, dictFind_cons]
        by_cases hk : k' = k
        · rw [if_pos hk, if_pos hk.symm]
        · rw [if_neg (fun h => hk h.symm), if_neg hk]
          rw [dictFind_mapReplace k' k v hk ds, dictFind_cons,
            if_neg (fun h => hk (hp ▸ h).symm)]
      · rw [List.map_cons, if_neg hp]
        have hany' : ds.any (fun q => q.1 = k) := by
          rcases List.any_eq_true.mp hany with ⟨q, hq, hqk⟩
          rcases List.mem_cons.mp hq with rfl | hq'
          · exact absurd (of_decide_eq_true hqk) hp
          · exact List.any_eq_true.mpr ⟨q, hq', hqk⟩
        rw [dictFind_cons, dictFind_cons]
        by_cases hq : p.1 = k'
        · have hk : ¬ (k' = k) := fun h => hp (hq.symm ▸ h ▸ rfl)
          rw [if_pos hq, if_neg hk, if_pos hq]
        · rw [if_neg hq, if_neg hq]
          have := dictFind_dictUpdate k v k' ds
          rwa [dictUpdate, if_pos hany'] at this
    · rw [if_neg hany]
      have hp : ¬ (p.1 = k) := by
        intro h
        exact hany (List.any_eq_true.mpr ⟨p, List.mem_cons_self _ _, by simp [h]⟩)
      have hany' : ¬ ds.any (fun q => q.1 = k) := by
        intro h
        rcases List.any_eq_true.mp h with ⟨q, hq, hqk⟩
        exact hany (List.any_eq_true.mpr ⟨q, List.mem_cons_of_mem _ hq, hqk⟩)
      rw [List.cons_append, dictFind_cons, dictFind_cons]
      by_cases hq : p.1 = k'
      · have hk : ¬ (k' = k) := fun h => hp (hq.symm ▸ h ▸ rfl)
        rw [if_pos hq, if_neg hk, if_pos hq]
      · rw [if_neg hq, if_neg hq]
        have := dictFind_dictUpdate k v k' ds
        rwa [dictUpdate, if_neg hany'] at this

theorem sentinel_step (d : PropDict) (p : Nat × List String) (k : String)
    (hk : k = "Body Start" ∨ k = "Body End")
    (hd : isOffsetOpt (dictFind d k)) :
    isOffsetOpt (dictFind (parse_properties_step d p) k) := by
  obtain ⟨i, line⟩ := p
  unfold parse_properties_step
  cases line with
  | nil => exact hd
  | cons key rest =>
    simp only
    by_cases hsw : startsWithBracket key
    · rw [if_neg (by simp [hsw])]
      by_cases hbs : pyStripBrackets key = "Body Start"
      · rw [if_pos hbs, dictFind_dictUpdate]
        by_cases hke : k = pyStripBrackets key
        · rw [if_pos hke]
          trivial
        · rw [if_neg hke]
          exact hd
      · rw [if_neg hbs]
        by_cases hbe : pyStripBrackets key = "Body End"
        · rw [if_pos hbe, dictFind_dictUpdate]
          by_cases hke : k = pyStripBrackets key
          · rw [if_pos hke]
            trivial
          · rw [if_neg hke]
            exact hd
        · rw [if_neg hbe]
          have hke : ¬ (k = pyStripBrackets key) := by
            rcases hk with rfl | rfl
            · exact fun h => hbs h.symm
            · exact fun h => hbe h.symm
          rcases hval : rest.filter (fun elem => elem ≠ "") with _ | ⟨v, vs⟩
          · exact hd
          · rcases vs with _ | ⟨v2, vs2⟩
            · rw [dictFind_dictUpdate, if_neg hke]
              exact hd
            · rw [dictFind_dictUpdate, if_neg hke]
              exact hd
    · rw [if_pos (by simp [hsw])]
      exact hd

theorem sentinel_offset (raw : List (List String)) (k : String)
    (hk : k = "Body Start" ∨ k = "Body End") :
    isOffsetOpt (dictFind (parse_properties raw) k) := by
  unfold parse_properties
  have : ∀ (l : List (Nat × List String)) (d : PropDict),
      isOffsetOpt (dictFind d k) →
      isOffsetOpt (dictFind (l.foldl parse_properties_step d) k) := by
    intro l
    induction l with
    | nil => exact fun d hd => hd
    | cons p l ih =>
      intro d hd
      exact ih _ (sentinel_step d p k hk hd)
  exact this raw.enum [] trivial

/-- Inversion of a successful `UNIBaseParser.__init__`. -/
theorem uniInit_ok_state (raw : List (List String)) (flag : Bool) (s : UNIState)
    (h : uniInit raw flag = .ok s) :
    s.raw = (if flag then removeContractInfoLines raw else raw) ∧
    s.dict = parse_properties s.raw ∧
    dictFind s.dict "Body Start" = some (.offset s.body_start_line) ∧
    dictFind s.dict "Body End" = some (.offset s.body_end_line) := by
  simp only [uniInit] at h
  rw [show (if flag then removeContractInfoLines raw else raw)
      = (if flag = true then removeContractInfoLines raw else raw) from rfl]
  generalize hg : (if flag = true then removeContractInfoLines raw else raw) = g at h ⊢
  split at h
  · exact absurd h (by simp)
  · split at h
    next bs be hbs hbe =>
      cases h
      exact ⟨rfl, rfl, hbs, hbe⟩
    next =>
      exact absurd h (by simp)

theorem uniInit_flag_split (raw : List (List String)) (flag : Bool) :
    uniInit raw flag
      = uniInit (if flag then removeContractInfoLines raw else raw) false := by
  cases flag <;> rfl

theorem uniInit_error_iff (g : List (List String)) :
    (uniInit g false = .error .emptyFile ↔ g = []) ∧
    (uniInit g false = .error .missingBodyMarkers ↔ g ≠ [] ∧
      (dictFind (parse_properties g) "Body Start" = none ∨
       dictFind (parse_properties g) "Body End" = none)) := by
  have he : uniInit g false
      = (if g = [] then .error .emptyFile
         else match dictFind (parse_properties g) "Body Start",
                    dictFind (parse_properties g) "Body End" with
              | some (.offset bs), some (.offset be) =>
                .ok ⟨g, parse_properties g, bs, be⟩
              | _, _ => .error .missingBodyMarkers) := rfl
  by_cases hg : g = []
  · rw [he, if_pos hg]
    constructor
    · simp [hg]
    · simp [hg]
  · rw [he, if_neg hg]
    have hbs := sentinel_offset g "Body Start" (Or.inl rfl)
    have hbe := sentinel_offset g "Body End" (Or.inr rfl)
    rcases h1 : dictFind (parse_properties g) "Body Start" with _ | v1
    · rcases h2 : dictFind (parse_properties g) "Body End" with _ | v2
      · simp [hg]
      · rw [h2] at hbe
        cases v2 with
        | offset m => simp [hg]
        | scalar s => exact absurd hbe (by simp [isOffsetOpt])
        | listVal l => exact absurd hbe (by simp [isOffsetOpt])
    · rw [h1] at hbs
      cases v1 with
      | offset m =>
        rcases h2 : dictFind (parse_properties g) "Body End" with _ | v2
        · simp [hg]
        · rw [h2] at hbe
          cases v2 with
          | offset m2 => simp [hg, h1, h2]
          | scalar s => exact absurd hbe (by simp [isOffsetOpt])
          | listVal l => exact absurd hbe (by simp [isOffsetOpt])
      | scalar s => exact absurd hbs (by simp [isOffsetOpt])
      | listVal l => exact absurd hbs (by simp [isOffsetOpt])

/-! ### Claim C4 -/

/-- C4, counterexample: on a valid header block (both sentinels present),
the returned property-key set differs from the bracket-key set minus the
two sentinels in both directions: the sentinel key `Body Start` is a
returned property key though the claim's set excludes it, and the
value-less bracket key `Empty` is in the claim's set though the parser
does not return it. -/
theorem claim_C4_counterexample :
    uniInit exHeaderC4 false = .ok exHeaderC4State ∧
    "Body Start" ∈ uniProperties exHeaderC4State ∧
    "Body Start" ∉ claimedKeysC4 exHeaderC4 ∧
    "Empty" ∈ claimedKeysC4 exHeaderC4 ∧
    "Empty" ∉ uniProperties exHeaderC4State := by decide

/-- C4 (amended): for every successfully constructed parser, the returned
property-key set consists of exactly the stripped bracket keys of the
(filtered) input lines that either are one of the two sentinel keys
`Body Start` / `Body End` or carry at least one non-empty value field after
the key; in particular the sentinels are included and value-less bracket
keys are excluded. -/
theorem claim_C4_properties_keys (raw : List (List String)) (flag : Bool)
    (s : UNIState) (h : uniInit raw flag = .ok s) (k : String) :
    k ∈ uniProperties s ↔ ∃ line ∈ s.raw, addsKey line k = true := by
  obtain ⟨_, hdict, _, _⟩ := uniInit_ok_state raw flag s h
  rw [uniProperties, hdict, mem_parse_properties]

/-- C4, witness: the amended key-set characterisation evaluated on the
concrete header block. -/
theorem claim_C4_witness :
    ("Body Start" ∈ uniProperties exHeaderState ↔
      ∃ line ∈ exHeaderState.raw, addsKey line "Body Start" = true) ∧
    ("Time zone" ∈ uniProperties exHeaderState ↔
      ∃ line ∈ exHeaderState.raw, addsKey line "Time zone" = true) :=
  ⟨claim_C4_properties_keys exHeader false exHeaderState (by decide) _,
   claim_C4_properties_keys exHeader false exHeaderState (by decide) _⟩

/-! ### Claim C5 -/

/-- C5, counterexample: with `remove_contract_info_lines` set, a one-line
input consisting of a CONTRACT-INFO line fails with the empty-input error
even though the input does not have zero lines. -/
theorem claim_C5_counterexample :
    exContract.length ≠ 0 ∧ uniInit exContract true = .error .emptyFile := by
  decide

/-- C5 (amended): construction fails with the empty-input error iff the
line list is empty after the optional CONTRACT-INFO filtering (for input
with the filter disabled: iff the input has zero lines); it fails with the
missing-body-markers error iff that list is non-empty and either sentinel
key is absent from the parsed properties; in both failure cases no parser
state is produced. -/
theorem claim_C5_construction_errors (raw : List (List String)) (flag : Bool) :
    (uniInit raw flag = .error .emptyFile ↔
      (if flag then removeContractInfoLines raw else raw) = []) ∧
    (uniInit raw flag = .error .missingBodyMarkers ↔
      (if flag then removeContractInfoLines raw else raw) ≠ [] ∧
      (dictFind (parse_properties
          (if flag then removeContractInfoLines raw else raw)) "Body Start" = none ∨
       dictFind (parse_properties
          (if flag then removeContractInfoLines raw else raw)) "Body End" = none)) ∧
    (∀ e, uniInit raw flag = .error e → ∀ s, ¬ uniInit raw flag = .ok s) := by
  rw [uniInit_flag_split raw flag]
  refine ⟨(uniInit_error_iff _).1, (uniInit_error_iff _).2, ?_⟩
  intro e he s hs
  rw [he] at hs
  exact absurd hs (by simp)

/-- C5, witness: the error characterisation evaluated on concrete inputs:
the empty input fails with the empty-input error, and a sentinel-free input
fails with the missing-body-markers error. -/
theorem claim_C5_witness :
    uniInit [] false = .error .emptyFile ∧
    uniInit [["x"]] false = .error .missingBodyMarkers :=
  ⟨(claim_C5_construction_errors [] false).1.mpr (by decide),
   (claim_C5_construction_errors [["x"]] false).2.1.mpr (by decide)⟩

/-! ### Claim C9 -/

/-- C9: with the flag set, every line containing a field equal to
`CONTRACT-INFO` is removed before header parsing — construction behaves
exactly as construction on the filtered line list — and the stored
properties (hence the body offsets) are parsed from the filtered list; with
the flag unset the line list is taken unchanged. -/
theorem claim_C9_contract_info_filter (raw : List (List String)) :
    uniInit raw true
      = uniInit (raw.filter (fun line => ¬ line.contains "CONTRACT-INFO")) false ∧
    (∀ s, uniInit raw true = .ok s →
      s.raw = raw.filter (fun line => ¬ line.contains "CONTRACT-INFO") ∧
      s.dict = parse_properties s.raw) ∧
    (∀ s, uniInit raw false = .ok s →
      s.raw = raw ∧ s.dict = parse_properties raw) := by
  refine ⟨uniInit_flag_split raw true, ?_, ?_⟩
  · intro s hs
    obtain ⟨hraw, hdict, _, _⟩ := uniInit_ok_state raw true s hs
    exact ⟨hraw, hdict⟩
  · intro s hs
    obtain ⟨hraw, hdict, _, _⟩ := uniInit_ok_state raw false s hs
    rw [if_neg (by decide)] at hraw
    exact ⟨hraw, hraw ▸ hdict⟩

/-- C9, witness: on a concrete input holding a CONTRACT-INFO line, the
constructed state's lines are the filtered lines (the body offsets index
into the filtered list). -/
theorem claim_C9_witness :
    uniInit exC9Input true
      = uniInit (exC9Input.filter (fun line => ¬ line.contains "CONTRACT-INFO"))
          false ∧
    (⟨exHeader, parse_properties exHeader, 2, 2⟩ : UNIState).raw
        = exC9Input.filter (fun line => ¬ line.contains "CONTRACT-INFO") ∧
    (⟨exHeader, parse_properties exHeader, 2, 2⟩ : UNIState).dict
        = parse_properties
            (⟨exHeader, parse_properties exHeader, 2, 2⟩ : UNIState).raw :=
  ⟨(claim_C9_contract_info_filter exC9Input).1,
   (claim_C9_contract_info_filter exC9Input).2.1
     ⟨exHeader, parse_properties exHeader, 2, 2⟩ (by decide)⟩

/-! ### Claims C1 and C2: block slicing -/

theorem valueBlock_eq (r : Row) (L : Int) (n σ : Nat)
    (hσ : migStep L = (σ : Int)) (hpos : 0 < σ)
    (hb : 8 + σ + n * σ ≤ r.length) :
    valueBlock r L n
      = (List.range n).map (fun k => r.getD (8 + σ + k * σ) (.num none)) := by
  simp only [valueBlock]
  rw [hσ]
  have h1 : (9 : Int) + (σ : Int) - 1 = ((8 + σ : Nat) : Int) := by
    push_cast; ring
  rw [h1]
  have h2 : ((8 + σ : Nat) : Int) + (n : Int) * (σ : Int)
      = ((8 + σ + n * σ : Nat) : Int) := by
    push_cast; ring
  rw [h2]
  exact pySlice_pos r (PyVal.num none) (8 + σ) n σ hpos hb

theorem qualityBlock_eq (r : Row) (L : Int) (n σ : Nat)
    (hσ : migStep L = (σ : Int)) (hpos : 0 < σ)
    (hb : 108 + σ + n * σ ≤ r.length) :
    qualityBlock r L n
      = (List.range n).map (fun k => r.getD (108 + σ + k * σ) (.num none)) := by
  simp only [qualityBlock]
  rw [hσ]
  have h1 : (9 : Int) + (σ : Int) - 1 + 100 = ((108 + σ : Nat) : Int) := by
    push_cast; ring
  rw [h1]
  have h2 : ((108 + σ : Nat) : Int) + (n : Int) * (σ : Int)
      = ((108 + σ + n * σ : Nat) : Int) := by
    push_cast; ring
  rw [h2]
  exact pySlice_pos r (PyVal.num none) (108 + σ) n σ hpos hb

theorem valueBlock_L10 (r : Row) (n : Nat) (hn : n ≤ 7)
    (hlen : 108 ≤ r.length) :
    valueBlock r 10 n
      = (List.range n).map (fun k => r.getD (7 - k) (.num none)) := by
  simp only [valueBlock]
  rw [show migStep 10 = -1 from by decide]
  have h1 : (9 : Int) + (-1) - 1 = ((7 : Nat) : Int) := by norm_num
  rw [h1]
  have h2 : ((7 : Nat) : Int) + (n : Int) * (-1)
      = ((7 : Nat) : Int) - (n : Int) * ((1 : Nat) : Int) := by
    push_cast
    ring
  rw [h2]
  have h3 : (-1 : Int) = -((1 : Nat) : Int) := by norm_num
  rw [h3]
  have h4 := pySlice_neg r (PyVal.num none) 7 n 1 (by norm_num) (by omega)
    (by omega)
  rw [h4]
  apply List.map_congr_left
  intro k _
  congr 1
  omega

theorem qualityBlock_L10 (r : Row) (n : Nat) (hn : n ≤ 7)
    (hlen : 108 ≤ r.length) :
    qualityBlock r 10 n
      = (List.range n).map (fun k => r.getD (107 - k) (.num none)) := by
  simp only [qualityBlock]
  rw [show migStep 10 = -1 from by decide]
  have h1 : (9 : Int) + (-1) - 1 + 100 = ((107 : Nat) : Int) := by norm_num
  rw [h1]
  have h2 : ((107 : Nat) : Int) + (n : Int) * (-1)
      = ((107 : Nat) : Int) - (n : Int) * ((1 : Nat) : Int) := by
    push_cast
    ring
  rw [h2]
  have h3 : (-1 : Int) = -((1 : Nat) : Int) := by norm_num
  rw [h3]
  have h4 := pySlice_neg r (PyVal.num none) 107 n 1 (by norm_num) (by omega)
    (by omega)
  rw [h4]
  apply List.map_congr_left
  intro k _
  congr 1
  omega

set_option maxRecDepth 100000 in
/-- C2, counterexample: the original claim fails inside its own domain
`L ∈ {5, 10, 15, 30, 60}`.  For a 217-column row declaring interval
length 5 (stride `S = 5 - 60/5 = -7`) with a 2-point index, and for one
declaring interval length 10 (stride `-1`) with a 24-hour 144-point
index, the value-block slice produced by the code holds 0 fields
instead of the claimed `n` fields at the claimed positions, and building
the row's series raises instead. -/
theorem claim_C2_counterexample :
    rowInterval cRowC2 = some 5 ∧
    rowStart cRowC2 = some 0 ∧ rowEnd cRowC2 = some 10 ∧
    (dateRangeRight 0 10 5).length = 2 ∧
    migStep 5 = -7 ∧
    (valueBlock cRowC2 5 2).length = 0 ∧
    parse_row_to_timeseries cRowC2 = .error "ValueError" ∧
    rowInterval cRowC2b = some 10 ∧
    rowStart cRowC2b = some 0 ∧ rowEnd cRowC2b = some 1440 ∧
    (dateRangeRight 0 1440 10).length = 144 ∧
    migStep 10 = -1 ∧
    (valueBlock cRowC2b 10 144).length = 0 ∧
    parse_row_to_timeseries cRowC2b = .error "ValueError" := by decide

/-- C2 (amended): with `S = 5 - (60 / L)` truncated to an integer, the
value block consists of exactly the row's `n` fields at positions
`9 + S - 1, 9 + S - 1 + S, …` (every `S`-th field, `n` fields in total)
and the quality-code block of the fields at the same positions shifted
right by 100, in the two regimes where those positions exist: for
`L ∈ {15, 30, 60}` (positive stride) whenever the positions fit inside
the row, and for `L = 10` (stride `-1`, positions descending from 7)
whenever `n ≤ 7`.  For `L = 5`, and for `L = 10` with an index longer
than 7, the negative-stride slice yields no such block and series
construction raises (see the counterexample). -/
theorem claim_C2_block_positions (r : Row) (L : Int) (n : Nat)
    (hcase : ((L = 15 ∨ L = 30 ∨ L = 60) ∧
        108 + (migStep L).toNat + n * (migStep L).toNat ≤ r.length) ∨
      (L = 10 ∧ n ≤ 7 ∧ 108 ≤ r.length)) :
    valueBlock r L n = (List.range n).map
      (fun (k : Nat) => r.getD
        (9 + migStep L - 1 + (k : Int) * migStep L).toNat (.num none)) ∧
    qualityBlock r L n = (List.range n).map
      (fun (k : Nat) => r.getD
        (9 + migStep L - 1 + 100 + (k : Int) * migStep L).toNat
        (.num none)) ∧
    (valueBlock r L n).length = n ∧ (qualityBlock r L n).length = n := by
  rcases hcase with ⟨hL, hb⟩ | ⟨rfl, hn, hlen⟩
  · have hσex : ∃ σ : Nat, migStep L = (σ : Int) ∧ 0 < σ := by
      rcases hL with rfl | rfl | rfl
      · exact ⟨1, by decide, by norm_num⟩
      · exact ⟨3, by decide, by norm_num⟩
      · exact ⟨4, by decide, by norm_num⟩
    obtain ⟨σ, hσe, hσp⟩ := hσex
    have hσt : (migStep L).toNat = σ := by
      rw [hσe]
      exact Int.toNat_natCast σ
    rw [hσt] at hb
    have hbv : 8 + σ + n * σ ≤ r.length := by omega
    have hv := valueBlock_eq r L n σ hσe hσp hbv
    have hq := qualityBlock_eq r L n σ hσe hσp hb
    refine ⟨?_, ?_, ?_, ?_⟩
    · rw [hv]
      apply List.map_congr_left
      intro k _
      congr 1
      rw [hσe]
      have hc : (9 + (σ : Int) - 1 + (k : Int) * (σ : Int))
          = ((8 + σ + k * σ : Nat) : Int) := by
        push_cast
        ring
      rw [hc, Int.toNat_natCast]
    · rw [hq]
      apply List.map_congr_left
      intro k _
      congr 1
      rw [hσe]
      have hc : (9 + (σ : Int) - 1 + 100 + (k : Int) * (σ : Int))
          = ((108 + σ + k * σ : Nat) : Int) := by
        push_cast
        ring
      rw [hc, Int.toNat_natCast]
    · rw [hv]
      simp
    · rw [hq]
      simp
  · have h10 : migStep 10 = -1 := by decide
    have hv := valueBlock_L10 r n hn hlen
    have hq := qualityBlock_L10 r n hn hlen
    refine ⟨?_, ?_, ?_, ?_⟩
    · rw [hv]
      apply List.map_congr_left
      intro k hk
      have hk' : k < n := List.mem_range.mp hk
      congr 1
      rw [h10]
      omega
    · rw [hq]
      apply List.map_congr_left
      intro k hk
      have hk' : k < n := List.mem_range.mp hk
      congr 1
      rw [h10]
      omega
    · rw [hv]
      simp
    · rw [hq]
      simp

set_option maxRecDepth 100000 in
/-- C2, witness: the amended block-position characterisation evaluated on
a 24-hour 15-minute row (ascending positions from 9) and on a 217-column
row at interval 10 with a 4-point index (descending positions from 7). -/
theorem claim_C2_witness :
    (valueBlock wRowC1 15 96 = (List.range 96).map
      (fun (k : Nat) => wRowC1.getD
        (9 + migStep 15 - 1 + (k : Int) * migStep 15).toNat (.num none)) ∧
     (valueBlock wRowC1 15 96).length = 96 ∧
     (qualityBlock wRowC1 15 96).length = 96) ∧
    (valueBlock cRowC2 10 4 = (List.range 4).map
      (fun (k : Nat) => cRowC2.getD
        (9 + migStep 10 - 1 + (k : Int) * migStep 10).toNat (.num none)) ∧
     (valueBlock cRowC2 10 4).length = 4 ∧
     (qualityBlock cRowC2 10 4).length = 4) :=
  ⟨⟨(claim_C2_block_positions wRowC1 15 96
        (Or.inl ⟨Or.inl rfl, by decide⟩)).1,
    (claim_C2_block_positions wRowC1 15 96
        (Or.inl ⟨Or.inl rfl, by decide⟩)).2.2.1,
    (claim_C2_block_positions wRowC1 15 96
        (Or.inl ⟨Or.inl rfl, by decide⟩)).2.2.2⟩,
   ⟨(claim_C2_block_positions cRowC2 10 4
        (Or.inr ⟨rfl, by norm_num, by decide⟩)).1,
    (claim_C2_block_positions cRowC2 10 4
        (Or.inr ⟨rfl, by norm_num, by decide⟩)).2.2.1,
    (claim_C2_block_positions cRowC2 10 4
        (Or.inr ⟨rfl, by norm_num, by decide⟩)).2.2.2⟩⟩

/-- C1: for every MIG-91 decoded row with declared interval length 15 and
`End - Start` equal to 24 hours (1440 minutes), the per-row builder
succeeds with an index of exactly 96 timestamps, right-closed over
`(Start, End]`; the value and quality series share that index (equal
lengths over the one shared index); the quality series holds the raw
quality-code fields untouched; and every position whose quality code is
`?` holds NaN in the value series. -/
theorem claim_C1_quarter_hour_day_row (r : Row) (t : Int)
    (hI : rowInterval r = some 15) (hS : rowStart r = some t)
    (hE : rowEnd r = some (t + 1440)) (hlen : 217 ≤ r.length) :
    ∃ ts, parse_row_to_timeseries r = .ok ts ∧
      ts.index.length = 96 ∧
      ts.index = (List.range 96).map (fun (k : Nat) => t + ((k : Int) + 1) * 15) ∧
      ts.values.length = ts.index.length ∧
      ts.quality.length = ts.index.length ∧
      ts.quality = (List.range 96).map (fun k => r.getD (109 + k) (.num none)) ∧
      (∀ k, ts.quality.get? k = some (.str "?") →
        ts.values.get? k = some (.num none)) := by
  have hidx : dateRangeRight t (t + 1440) 15
      = (List.range 96).map (fun (k : Nat) => t + ((k : Int) + 1) * 15) := by
    simp only [dateRangeRight]
    rw [if_neg (by norm_num)]
    have h14 : (t + 1440 - t).toNat = 1440 := by omega
    rw [h14]
    rfl
  have hstep : migStep 15 = ((1 : Nat) : Int) := by decide
  have hv := valueBlock_eq r 15 96 1 hstep (by norm_num) (by omega)
  have hq := qualityBlock_eq r 15 96 1 hstep (by norm_num) (by omega)
  have hq' : qualityBlock r 15 96
      = (List.range 96).map (fun k => r.getD (109 + k) (.num none)) := by
    rw [hq]
    apply List.map_congr_left
    intro k _
    congr 1
    omega
  simp only [parse_row_to_timeseries, hI, hS, hE]
  rw [if_neg (by norm_num : ¬ (15 : Int) ≤ 0)]
  rw [hidx]
  simp only [List.length_map, List.length_range]
  rw [hv, hq']
  have hvlen : ((List.range 96).map
      (fun k => r.getD (8 + 1 + k * 1) (PyVal.num none))).length = 96 := by simp
  have hqlen : ((List.range 96).map
      (fun k => r.getD (109 + k) (PyVal.num none))).length = 96 := by simp
  rw [if_pos hvlen, if_pos hqlen]
  refine ⟨_, rfl, by simp, rfl, ?_, by simp, rfl, ?_⟩
  · simp [maskValues, zipWith_map_same]
  · intro k hk
    simp only [maskValues, zipWith_map_same, List.get?_map] at hk ⊢
    rcases hrange : (List.range 96).get? k with _ | j
    · rw [hrange] at hk
      simp at hk
    · rw [hrange] at hk
      have hj : r.getD (109 + j) (PyVal.num none) = PyVal.str "?" := by
        simpa using hk
      show some (if r.getD (109 + j) (PyVal.num none) = PyVal.str "?"
          then PyVal.num none else r.getD (8 + 1 + j * 1) (PyVal.num none))
        = some (PyVal.num none)
      rw [if_pos hj]

set_option maxRecDepth 100000 in
/-- C1, witness: the day-row property evaluated on the concrete 217-column
row `wRowC1` (quality `?` at reading position 1). -/
theorem claim_C1_witness :
    ∃ ts, parse_row_to_timeseries wRowC1 = .ok ts ∧
      ts.index.length = 96 ∧
      ts.index = (List.range 96).map (fun (k : Nat) => 0 + ((k : Int) + 1) * 15) ∧
      ts.values.length = ts.index.length ∧
      ts.quality.length = ts.index.length ∧
      ts.quality
        = (List.range 96).map (fun k => wRowC1.getD (109 + k) (.num none)) ∧
      (∀ k, ts.quality.get? k = some (.str "?") →
        ts.values.get? k = some (.num none)) :=
  claim_C1_quarter_hour_day_row wRowC1 0 (by decide) (by decide) (by decide)
    (by decide)


/-! ### Claim C6: the get_dataframe cache is never populated -/

/-- C6 (code bug): on a concretely constructed `MigParser`, `__init__` sets
the `self.df` cache slot to `None` and `get_dataframe` checks it, but
`_parse_dataframe`'s result is never assigned to `self.df`; two successive
`get_dataframe` calls therefore both run `_parse_dataframe` (re-reading the
file), returning equal frames but violating the claimed at-most-one
computation. -/
theorem claim_C6_get_dataframe_recomputes :
    migInit exMigInput false = .ok exMigState ∧
    exMigState.df = none ∧
    (get_dataframe exMigState).2.2 = true ∧
    (get_dataframe exMigState).2.1 = exMigState ∧
    (get_dataframe (get_dataframe exMigState).2.1).2.2 = true ∧
    (get_dataframe (get_dataframe exMigState).2.1).1
      = (get_dataframe exMigState).1 := by
  decide

/-! ### Claim C7: duplicate series are retained by the assembler -/

theorem seqExcept_cons_ok {ε α : Type} {x : Except ε α} {a : α}
    {l : List (Except ε α)} {out : List α}
    (hx : x = .ok a) (hl : seqExcept l = .ok out) :
    seqExcept (x :: l) = .ok (a :: out) := by
  unfold seqExcept
  rw [hx, hl]

theorem seqExcept_append_ok {ε α : Type} {l1 l2 : List (Except ε α)}
    {a1 a2 : List α} (h1 : seqExcept l1 = .ok a1)
    (h2 : seqExcept l2 = .ok a2) :
    seqExcept (l1 ++ l2) = .ok (a1 ++ a2) := by
  induction l1 generalizing a1 with
  | nil =>
    unfold seqExcept at h1
    cases h1
    simpa using h2
  | cons x xs ih =>
    unfold seqExcept at h1
    cases x with
    | error e => exact absurd h1 (by simp)
    | ok a =>
      rcases hxs : seqExcept xs with e | l
      · rw [hxs] at h1
        exact absurd h1 (by simp)
      · rw [hxs] at h1
        cases h1
        rw [List.cons_append]
        exact seqExcept_cons_ok rfl (ih hxs)

theorem seqExcept_mem {ε α : Type} {l : List (Except ε α)} {out : List α}
    (h : seqExcept l = .ok out) {x : Except ε α} (hx : x ∈ l) :
    ∃ y ∈ out, x = .ok y := by
  induction l generalizing out with
  | nil => cases hx
  | cons z zs ih =>
    unfold seqExcept at h
    cases z with
    | error e => exact absurd h (by simp)
    | ok a =>
      rcases hzs : seqExcept zs with e | l'
      · rw [hzs] at h
        exact absurd h (by simp)
      · rw [hzs] at h
        cases h
        rcases List.mem_cons.mp hx with rfl | hx'
        · exact ⟨a, List.mem_cons_self _ _, rfl⟩
        · obtain ⟨y, hy, hxy⟩ := ih hzs hx'
          exact ⟨y, List.mem_cons_of_mem _ hy, hxy⟩

theorem mem_dropDuplicatesAux {α : Type} [DecidableEq α] (x : α) :
    ∀ (l seen : List α),
      x ∈ dropDuplicatesAux seen l ↔ (x ∈ l ∧ x ∉ seen)
  | [], seen => by simp [dropDuplicatesAux]
  | y :: ys, seen => by
    unfold dropDuplicatesAux
    by_cases hy : y ∈ seen
    · rw [if_pos hy, mem_dropDuplicatesAux x ys seen]
      constructor
      · rintro ⟨hxy, hxs⟩
        exact ⟨List.mem_cons_of_mem _ hxy, hxs⟩
      · rintro ⟨hxy, hxs⟩
        rcases List.mem_cons.mp hxy with rfl | h
        · exact absurd hy hxs
        · exact ⟨h, hxs⟩
    · rw [if_neg hy, List.mem_cons, mem_dropDuplicatesAux x ys (y :: seen)]
      constructor
      · rintro (rfl | ⟨hxy, hxs⟩)
        · exact ⟨List.mem_cons_self _ _, hy⟩
        · exact ⟨List.mem_cons_of_mem _ hxy,
            fun hc => hxs (List.mem_cons_of_mem _ hc)⟩
      · rintro ⟨hxy, hxs⟩
        rcases List.mem_cons.mp hxy with rfl | h
        · exact Or.inl rfl
        · by_cases hxy2 : x = y
          · exact Or.inl hxy2
          · exact Or.inr ⟨h, fun hc => by
              rcases List.mem_cons.mp hc with h3 | h3
              · exact hxy2 h3
              · exact hxs h3⟩

theorem mem_dropDuplicates {α : Type} [DecidableEq α] (x : α) (l : List α) :
    x ∈ dropDuplicates l ↔ x ∈ l := by
  rw [dropDuplicates, mem_dropDuplicatesAux]
  simp

/-- C7: duplicate `(timestamp, DeviceKey)` pairs are not deduplicated by
the MIG-91 assembler: whenever two distinct decoded rows share the same
device key and overlapping `(Start, End]` windows, the stacked column for
that key in the resulting time-series table contains both rows' interval
series, in row order. -/
theorem claim_C7_no_dedup (pre mid post : List Row) (r1 r2 : Row)
    (ts1 ts2 : RowTS) (apre amid apost : List RowTS)
    (table : List ((PyVal × PyVal × PyVal × PyVal) × List RowTS))
    (hk : groupKey r2 = groupKey r1) (hne : r1 ≠ r2)
    (h1 : parse_row_to_timeseries r1 = .ok ts1)
    (h2 : parse_row_to_timeseries r2 = .ok ts2)
    (hne1 : ts1.index ≠ []) (hne2 : ts2.index ≠ [])
    (hovl : ∃ x, x ∈ ts1.index ∧ x ∈ ts2.index)
    (hpre : seqExcept ((pre.filter (fun r => groupKey r = groupKey r1)).map
        parse_row_to_timeseries) = .ok apre)
    (hmid : seqExcept ((mid.filter (fun r => groupKey r = groupKey r1)).map
        parse_row_to_timeseries) = .ok amid)
    (hpost : seqExcept ((post.filter (fun r => groupKey r = groupKey r1)).map
        parse_row_to_timeseries) = .ok apost)
    (htab : mig_timeseries_table (pre ++ r1 :: (mid ++ r2 :: post))
        = .ok table) :
    (groupKey r1,
      apre.filter (fun t => t.index ≠ []) ++ ts1 ::
        (amid.filter (fun t => t.index ≠ []) ++ ts2 ::
          apost.filter (fun t => t.index ≠ []))) ∈ table := by
  set k := groupKey r1 with hkdef
  set rows := pre ++ r1 :: (mid ++ r2 :: post) with hrows
  have hfil : rows.filter (fun r => groupKey r = k)
      = pre.filter (fun r => groupKey r = k) ++ r1 ::
        (mid.filter (fun r => groupKey r = k) ++ r2 ::
          post.filter (fun r => groupKey r = k)) := by
    rw [hrows, List.filter_append, List.filter_cons_of_pos (by simp),
      List.filter_append, List.filter_cons_of_pos (by simp [hk])]
  have hgroup : parsedGroup rows k
      = .ok (apre.filter (fun t => t.index ≠ []) ++ ts1 ::
          (amid.filter (fun t => t.index ≠ []) ++ ts2 ::
            apost.filter (fun t => t.index ≠ []))) := by
    unfold parsedGroup
    rw [hfil, List.map_append, List.map_cons, List.map_append, List.map_cons]
    rw [seqExcept_append_ok hpre
      (seqExcept_cons_ok h1 (seqExcept_append_ok hmid
        (seqExcept_cons_ok h2 hpost)))]
    show Except.ok ((apre ++ ts1 :: (amid ++ ts2 :: apost)).filter
        (fun t => t.index ≠ [])) = Except.ok
        (apre.filter (fun t => t.index ≠ []) ++ ts1 ::
          (amid.filter (fun t => t.index ≠ []) ++ ts2 ::
            apost.filter (fun t => t.index ≠ [])))
    rw [List.filter_append, List.filter_cons_of_pos (by simpa using hne1),
      List.filter_append, List.filter_cons_of_pos (by simpa using hne2)]
  have hmemk : k ∈ groupKeys rows := by
    rw [groupKeys, mem_dropDuplicates]
    refine List.mem_map_of_mem groupKey ?_
    rw [hrows]
    exact List.mem_append_right _ (List.mem_cons_self _ _)
  unfold mig_timeseries_table at htab
  rcases hseq : seqExcept ((groupKeys rows).map
      (fun k => (parsedGroup rows k).map (fun c => (k, c)))) with e | cols
  · rw [hseq] at htab
    exact Except.noConfusion
      (show Except.error e = Except.ok table from htab)
  · rw [hseq] at htab
    have htab2 : (match cols.filter (fun c => c.2 ≠ []) with
        | [] => (Except.error "ValueError" : Except String
            (List ((PyVal × PyVal × PyVal × PyVal) × List RowTS)))
        | cs => Except.ok cs) = Except.ok table := htab
    obtain ⟨y, hy, hyeq⟩ := seqExcept_mem hseq
      (List.mem_map_of_mem (fun k => (parsedGroup rows k).map (fun c => (k, c)))
        hmemk)
    have hyeq1 : (parsedGroup rows k).map (fun c => (k, c)) = Except.ok y :=
      hyeq
    rw [hgroup] at hyeq1
    have hyeq2 : Except.ok (k, apre.filter (fun t => t.index ≠ []) ++ ts1 ::
        (amid.filter (fun t => t.index ≠ []) ++ ts2 ::
          apost.filter (fun t => t.index ≠ []))) = Except.ok y := hyeq1
    have hymem : y = (k, apre.filter (fun t => t.index ≠ []) ++ ts1 ::
        (amid.filter (fun t => t.index ≠ []) ++ ts2 ::
          apost.filter (fun t => t.index ≠ []))) := by
      injection hyeq2 with h
      exact h.symm
    rcases hcols : cols.filter (fun c => c.2 ≠ []) with _ | ⟨c, cs⟩
    · rw [hcols] at htab2
      exact Except.noConfusion
        (show (Except.error "ValueError" : Except String _)
            = Except.ok table from htab2)
    · rw [hcols] at htab2
      have htabeq : table = cols.filter (fun c => c.2 ≠ []) := by
        rw [hcols]
        injection htab2 with h
        exact h.symm
      rw [htabeq, List.mem_filter]
      refine ⟨hymem ▸ hy, ?_⟩
      simp


set_option maxRecDepth 100000 in
/-- C7, witness: two distinct decoded rows with the same device key and the
same `(0, 15]` window both contribute their series to the assembled
table's column for that key. -/
theorem claim_C7_witness :
    (groupKey wRowC7a, [wTS7a, wTS7b]) ∈ wTableC7 :=
  claim_C7_no_dedup [] [] [] wRowC7a wRowC7b wTS7a wTS7b [] [] [] wTableC7
    (by decide) (by decide) (by decide) (by decide) (by decide) (by decide)
    ⟨15, by decide, by decide⟩ rfl rfl rfl (by decide)

/-! ### Claim C3: MMR probe-and-fallback -/

/-- C3: the two-wire MMR body decode attempts the short layout first and
retries with the long layout exactly when the short attempt raises a
value-conversion error; on success exactly one of the two layouts is
adopted (the marker set iff the long one); and because each call re-probes
deterministically, the marker after a repeated call equals the marker after
the first, so the adopted layout is fixed for the instance's lifetime. -/
theorem claim_C3_probe_fallback {α : Type} (short long : Except PyExn α) :
    ((mmr_parse_dataframe short long false).2.2 = true ↔
      short = .error .valueError) ∧
    (∀ df, (mmr_parse_dataframe short long false).1 = .ok df →
      ((mmr_parse_dataframe short long false).2.1 = false ∧ short = .ok df) ∨
      ((mmr_parse_dataframe short long false).2.1 = true ∧
        short = .error .valueError ∧ long = .ok df)) ∧
    ((mmr_parse_dataframe short long false).2.1 = true ↔
      short = .error .valueError ∧ ∃ df, long = .ok df) ∧
    ((mmr_parse_dataframe short long
        ((mmr_parse_dataframe short long false).2.1)).2.1
      = (mmr_parse_dataframe short long false).2.1) ∧
    ((mmr_parse_dataframe short long
        ((mmr_parse_dataframe short long false).2.1)).1
      = (mmr_parse_dataframe short long false).1) := by
  rcases short with e | df0
  · cases e <;> rcases long with e2 | df1 <;>
      simp [mmr_parse_dataframe]
  · simp [mmr_parse_dataframe]

/-- C3, witness: the probe characterisation evaluated at a short probe
failing with a value-conversion error and a succeeding long probe. -/
theorem claim_C3_witness :
    ((mmr_parse_dataframe (.error .valueError) (.ok 0) false).2.2 = true ↔
      (.error .valueError : Except PyExn Nat) = .error .valueError) ∧
    (∀ df, (mmr_parse_dataframe (.error .valueError) (.ok 0) false).1
        = .ok df →
      ((mmr_parse_dataframe (.error .valueError) (.ok 0) false).2.1 = false ∧
        (.error .valueError : Except PyExn Nat) = .ok df) ∨
      ((mmr_parse_dataframe (.error .valueError) (.ok 0) false).2.1 = true ∧
        (.error .valueError : Except PyExn Nat) = .error .valueError ∧
        (.ok 0 : Except PyExn Nat) = .ok df)) ∧
    ((mmr_parse_dataframe (.error .valueError) (.ok 0) false).2.1 = true ↔
      (.error .valueError : Except PyExn Nat) = .error .valueError ∧
      ∃ df, (.ok 0 : Except PyExn Nat) = .ok df) ∧
    ((mmr_parse_dataframe (.error .valueError) (.ok 0)
        ((mmr_parse_dataframe (.error .valueError) (.ok 0) false).2.1)).2.1
      = (mmr_parse_dataframe (.error .valueError) (.ok 0) false).2.1) ∧
    ((mmr_parse_dataframe (.error .valueError) (.ok 0)
        ((mmr_parse_dataframe (.error .valueError) (.ok 0) false).2.1)).1
      = (mmr_parse_dataframe (.error .valueError) (.ok 0) false).1) :=
  claim_C3_probe_fallback (.error .valueError) (.ok 0)


/-! ### Two-wire helper lemmas -/

theorem dateRangeBoth_nodup (s e f : ℚ) (hf : 0 < f) :
    (dateRangeBoth s e f).Nodup := by
  unfold dateRangeBoth
  split
  · exact List.nodup_nil
  · refine List.Nodup.map ?_ (List.nodup_range _)
    intro a b hab
    simp only at hab
    have h1 : (a : ℚ) * f = (b : ℚ) * f := add_left_cancel hab
    have h2 : (a : ℚ) = (b : ℚ) := mul_right_cancel₀ (ne_of_gt hf) h1
    exact_mod_cast h2

theorem misc_date_range_ok_shape (s e : ℚ) (p : Nat) (idx : List ℚ)
    (h : misc_date_range s e p = .ok idx) :
    idx = [] ∨ ∃ f, 0 < f ∧ idx = dateRangeBoth s e f := by
  unfold misc_date_range at h
  split at h
  · split at h
    · exact Except.noConfusion h
    · have h2 : (if (e - s) / ((p : ℚ) - 1) ≤ 0
          then Except.error "ValueError"
          else Except.ok (dateRangeBoth s e ((e - s) / ((p : ℚ) - 1))))
          = Except.ok idx := h
      split at h2
      · exact Except.noConfusion h2
      next hf =>
        right
        refine ⟨(e - s) / ((p : ℚ) - 1), lt_of_not_le hf, ?_⟩
        injection h2 with h3
        exact h3.symm
  · left
    injection h with h2
    exact h2.symm

theorem mem_dedupByName (d : String × List PyVal) :
    ∀ (l : List (String × List PyVal)) (seen : List String),
      d ∈ dedupByNameAux seen l → d ∈ l
  | [], _, h => absurd h (List.not_mem_nil d)
  | x :: xs, seen, h => by
    unfold dedupByNameAux at h
    by_cases hx : x.1 ∈ seen
    · rw [if_pos hx] at h
      exact List.mem_cons_of_mem _ (mem_dedupByName d xs seen h)
    · rw [if_neg hx] at h
      rcases List.mem_cons.mp h with rfl | h2
      · exact List.mem_cons_self _ _
      · exact List.mem_cons_of_mem _ (mem_dedupByName d xs (x.1 :: seen) h2)

theorem dedupByName_ne_nil (l : List (String × List PyVal)) (h : l ≠ []) :
    dedupByName l ≠ [] := by
  cases l with
  | nil => exact absurd rfl h
  | cons x xs =>
    unfold dedupByName dedupByNameAux
    rw [if_neg (List.not_mem_nil x.1)]
    exact List.cons_ne_nil _ _

theorem transposeVals_row_length (devs : List (String × List PyVal))
    (w j : Nat) (hj : j < w) (hrect : ∀ d ∈ devs, d.2.length = w) :
    (devs.filterMap (fun d => d.2.get? j)).length = devs.length := by
  rw [filterMap_eq_map_of_some (g := fun d => d.2.getD j (PyVal.num none))]
  · exact List.length_map _ _
  · intro d hd
    exact get?_eq_some_getD d.2 (PyVal.num none) j (by rw [hrect d hd]; exact hj)

theorem filter_ne_getLast_eq_dropLast {α β : Type} [DecidableEq α] :
    ∀ (l : List (α × β)) (hne : l ≠ []),
      (l.map Prod.fst).Nodup →
      l.filter (fun r => r.1 ≠ (l.getLast hne).1) = l.dropLast
  | [], hne, _ => absurd rfl hne
  | [x], _, _ => by
    simp [List.getLast]
  | x :: y :: tl, _, hnd => by
    have hlast : (x :: y :: tl).getLast (List.cons_ne_nil _ _)
        = (y :: tl).getLast (List.cons_ne_nil _ _) :=
      List.getLast_cons (List.cons_ne_nil _ _)
    have hxne : x.1 ≠ ((y :: tl).getLast (List.cons_ne_nil _ _)).1 := by
      intro hcon
      have hmem : ((y :: tl).getLast (List.cons_ne_nil _ _)) ∈ y :: tl :=
        List.getLast_mem _
      have hmem2 : ((y :: tl).getLast (List.cons_ne_nil _ _)).1
          ∈ (y :: tl).map Prod.fst := List.mem_map_of_mem Prod.fst hmem
      rw [List.map_cons] at hnd
      exact (List.nodup_cons.mp hnd).1 (hcon ▸ hmem2)
    rw [List.filter_cons_of_pos (by simpa [hlast] using hxne)]
    have ih := filter_ne_getLast_eq_dropLast (y :: tl)
      (List.cons_ne_nil _ _) (by rw [List.map_cons] at hnd; exact (List.nodup_cons.mp hnd).2)
    rw [show ((x :: y :: tl).getLast (by simp)).1
        = ((y :: tl).getLast (List.cons_ne_nil _ _)).1 from by rw [hlast]]
    rw [ih]
    rfl

theorem lastValidIndex_all_valid (frame : List (ℚ × List PyVal))
    (h : ∀ r ∈ frame, r.2.any (fun v => ¬ v.isNA) = true)
    (hne : frame ≠ []) :
    lastValidIndex frame = some ((frame.getLast hne).1) := by
  unfold lastValidIndex
  rw [List.filter_eq_self.mpr (by intro r hr; simpa using h r hr)]
  rw [List.getLast?_eq_getLast frame hne]
  rfl


theorem tw_get_ok_inversion (devices : List (String × List PyVal)) (w : Nat)
    (s e : ℚ) (interval : Option ℚ) (adn : Bool)
    (frame : List (ℚ × List PyVal))
    (hok : tw_get_timeseries_frame devices w s e interval adn = .ok frame) :
    ∃ idx : List ℚ,
      frame = idx.zip (twValueRows devices w adn) ∧
      idx.length = (twValueRows devices w adn).length ∧
      (idx = [] ∨ ∃ f, 0 < f ∧ idx = dateRangeBoth s e f) := by
  unfold tw_get_timeseries_frame at hok
  rcases interval with _ | f
  · have hok2 : (match misc_date_range s e
          (twValueRows devices w adn).length with
        | Except.error err =>
          (Except.error err : Except String (List (ℚ × List PyVal)))
        | Except.ok idx =>
          if idx.length = (twValueRows devices w adn).length
          then Except.ok (idx.zip (twValueRows devices w adn))
          else Except.error "ValueError") = Except.ok frame := hok
    rcases hmr : misc_date_range s e (twValueRows devices w adn).length
        with err | idx
    · rw [hmr] at hok2
      exact Except.noConfusion
        (show (Except.error err : Except String (List (ℚ × List PyVal)))
            = Except.ok frame from hok2)
    · rw [hmr] at hok2
      have hok3 : (if idx.length = (twValueRows devices w adn).length
          then Except.ok (idx.zip (twValueRows devices w adn))
          else (Except.error "ValueError" :
            Except String (List (ℚ × List PyVal)))) = Except.ok frame := hok2
      split at hok3
      next hlen =>
        injection hok3 with h
        exact ⟨idx, h.symm, hlen, misc_date_range_ok_shape s e _ idx hmr⟩
      next => exact Except.noConfusion hok3
  · have hok2 : (if f ≤ 0
        then (Except.error "ValueError" :
          Except String (List (ℚ × List PyVal)))
        else if (dateRangeBoth s e f).length
            = (twValueRows devices w adn).length
          then Except.ok ((dateRangeBoth s e f).zip
            (twValueRows devices w adn))
          else Except.error "ValueError") = Except.ok frame := hok
    split at hok2
    · exact Except.noConfusion hok2
    next hf =>
      split at hok2
      next hlen =>
        injection hok2 with h
        exact ⟨dateRangeBoth s e f, h.symm, hlen,
          Or.inr ⟨f, lt_of_not_le hf, rfl⟩⟩
      next => exact Except.noConfusion hok2

/-- C8: for every AMR two-wire frame that assembles successfully and is
non-empty (with rectangular value columns and at least one device), the
AMR parser's timeseries frame equals the base transposed,
timestamp-indexed table with its final timestamp row removed. -/
theorem claim_C8_amr_drops_final_row
    (devices : List (String × List PyVal)) (w : Nat) (s e : ℚ)
    (interval : Option ℚ) (adn : Bool) (frame : List (ℚ × List PyVal))
    (hrect : ∀ d ∈ devices, d.2.length = w)
    (hdev : devices ≠ [])
    (hok : tw_get_timeseries_frame devices w s e interval adn = .ok frame)
    (hne : frame ≠ []) :
    amr_get_timeseries_frame devices w s e interval adn
      = .ok frame.dropLast := by
  obtain ⟨idx, hframe, hlen, hshape⟩ :=
    tw_get_ok_inversion devices w s e interval adn frame hok
  have hdevs_ne : (if adn then devices else dedupByName devices) ≠ [] := by
    cases adn
    · simpa using dedupByName_ne_nil devices hdev
    · simpa using hdev
  have hdevs_rect :
      ∀ d ∈ (if adn then devices else dedupByName devices),
        d.2.length = w := by
    intro d hd
    cases adn
    · simp only [Bool.false_eq_true, if_false] at hd
      exact hrect d (mem_dedupByName d devices [] hd)
    · simp only [if_true] at hd
      exact hrect d hd
  -- every row of the assembled frame is entirely non-missing and non-empty
  have hvalid : ∀ r ∈ frame, r.2.any (fun v => ¬ v.isNA) = true := by
    rintro ⟨lbl, row⟩ hr
    rw [hframe] at hr
    have hrow : row ∈ twValueRows devices w adn := (List.of_mem_zip hr).2
    unfold twValueRows at hrow
    have hfil := List.mem_filter.mp hrow
    obtain ⟨hmemT, hnoNA⟩ := hfil
    obtain ⟨j, hj, hrowj⟩ := List.mem_map.mp hmemT
    have hjw : j < w := List.mem_range.mp hj
    have hrlen : row.length
        = (if adn then devices else dedupByName devices).length := by
      rw [← hrowj]
      exact transposeVals_row_length _ w j hjw hdevs_rect
    have hrowne : row ≠ [] := by
      intro hcon
      rw [hcon] at hrlen
      exact hdevs_ne (List.length_eq_zero.mp hrlen.symm)
    rcases hrow0 : row with _ | ⟨v, vs⟩
    · exact absurd hrow0 hrowne
    · have hnoNA2 : row.any PyVal.isNA = false := by
        simpa using hnoNA
      have hv : PyVal.isNA v = false := by
        have : v ∈ row := by
          rw [hrow0]
          exact List.mem_cons_self _ _
        rcases hx : PyVal.isNA v with _ | _
        · rfl
        · exact absurd (List.any_eq_true.mpr ⟨v, this, hx⟩)
            (by rw [hnoNA2]; simp)
      apply List.any_eq_true.mpr
      exact ⟨v, List.mem_cons_self _ _, by simp [hv]⟩
  -- the index labels are pairwise distinct
  have hnodup : (frame.map Prod.fst).Nodup := by
    rw [hframe, List.map_fst_zip idx _ (le_of_eq hlen)]
    rcases hshape with rfl | ⟨f, hf, rfl⟩
    · exact List.nodup_nil
    · exact dateRangeBoth_nodup s e f hf
  unfold amr_get_timeseries_frame
  rw [hok]
  show (match lastValidIndex frame with
      | none => (Except.error "KeyError" :
          Except String (List (ℚ × List PyVal)))
      | some lbl => Except.ok (frame.filter (fun r => r.1 ≠ lbl)))
      = Except.ok frame.dropLast
  rw [lastValidIndex_all_valid frame hvalid hne]
  show Except.ok (frame.filter (fun r => r.1 ≠ (frame.getLast hne).1))
      = Except.ok frame.dropLast
  rw [filter_ne_getLast_eq_dropLast frame hne hnodup]


set_option maxRecDepth 10000 in
/-- C8, witness: a one-device AMR frame over `(0, 5]` at a declared
5-minute interval has its final timestamp row dropped. -/
theorem claim_C8_witness :
    amr_get_timeseries_frame [("a", [PyVal.num (some 1), PyVal.num (some 2)])]
        2 0 5 (some 5) true
      = .ok ([((0 : ℚ), [PyVal.num (some 1)]),
              ((5 : ℚ), [PyVal.num (some 2)])].dropLast) := by
  have hdr : dateRangeBoth 0 5 5 = [(0 : ℚ), 5] := by
    unfold dateRangeBoth
    rw [if_neg (by norm_num)]
    have hfl : Rat.floor (((5 : ℚ) - 0) / 5) = 1 := by
      have hb : Rat.floor (((5 : ℚ) - 0) / 5)
          = Int.floor (((5 : ℚ) - 0) / 5) := rfl
      rw [hb]
      norm_num
    rw [hfl]
    norm_num [List.range_succ]
  have htv : twValueRows [("a", [PyVal.num (some 1), PyVal.num (some 2)])]
      2 true = [[PyVal.num (some 1)], [PyVal.num (some 2)]] := by decide
  have hframe : tw_get_timeseries_frame
      [("a", [PyVal.num (some 1), PyVal.num (some 2)])] 2 0 5 (some 5) true
      = .ok [((0 : ℚ), [PyVal.num (some 1)]),
             ((5 : ℚ), [PyVal.num (some 2)])] := by
    have hbody : tw_get_timeseries_frame
        [("a", [PyVal.num (some 1), PyVal.num (some 2)])] 2 0 5 (some 5) true
        = (if (5 : ℚ) ≤ 0
           then (Except.error "ValueError" :
             Except String (List (ℚ × List PyVal)))
           else if (dateRangeBoth 0 5 5).length
               = (twValueRows [("a", [PyVal.num (some 1), PyVal.num (some 2)])]
                   2 true).length
             then Except.ok ((dateRangeBoth 0 5 5).zip
               (twValueRows [("a", [PyVal.num (some 1), PyVal.num (some 2)])]
                 2 true))
             else Except.error "ValueError") := rfl
    rw [hbody, if_neg (by norm_num), hdr, htv]
    rfl
  exact claim_C8_amr_drops_final_row _ 2 0 5 (some 5) true _
    (by intro d hd; rcases List.mem_singleton.mp hd with rfl; rfl)
    (by simp) hframe (by simp)

/-- C10: when no interval is declared, the base two-wire timeseries frame
is indexed by a count-derived index whose period count is the number of
transposed rows REMAINING after dropping every row with a missing value:
the assembled frame pairs exactly the surviving rows with that index, all
its rows are free of missing values, and whenever some transposed row was
dropped the frame is strictly shorter than the raw per-row reading count
`w`. -/
theorem claim_C10_count_derived_index
    (devices : List (String × List PyVal)) (w : Nat) (s e : ℚ) (adn : Bool)
    (hse : s < e)
    (h2 : 2 ≤ (twValueRows devices w adn).length) :
    ∃ frame, tw_get_timeseries_frame devices w s e none adn = .ok frame ∧
      frame.length = (twValueRows devices w adn).length ∧
      frame.map Prod.snd = twValueRows devices w adn ∧
      (∀ r ∈ frame, r.2.any PyVal.isNA = false) ∧
      ((∃ row ∈ transposeVals
          (if adn then devices else dedupByName devices) w,
          row.any PyVal.isNA = true) →
        frame.length < w) := by
  set n := (twValueRows devices w adn).length with hn
  have hn0 : n ≠ 0 := by omega
  have hn1 : n ≠ 1 := by omega
  have hcast : (1 : ℚ) < (n : ℚ) := by exact_mod_cast (by omega : 1 < n)
  have hfpos : 0 < (e - s) / ((n : ℚ) - 1) :=
    div_pos (by linarith) (by linarith)
  have hflen : (dateRangeBoth s e ((e - s) / ((n : ℚ) - 1))).length = n := by
    unfold dateRangeBoth
    rw [if_neg (by push_neg; constructor <;> [linarith; linarith])]
    have hdiv : (e - s) / ((e - s) / ((n : ℚ) - 1)) = (n : ℚ) - 1 := by
      rw [div_div_eq_mul_div]
      rw [mul_comm, mul_div_assoc, div_self (by linarith : e - s ≠ 0), mul_one]
    rw [hdiv]
    have hnat : ((n : ℚ) - 1) = ((n - 1 : Nat) : ℚ) := by
      push_cast [Nat.cast_sub (by omega : 1 ≤ n)]
      ring
    rw [hnat]
    have hfl : Rat.floor (((n - 1 : Nat) : ℚ)) = ((n - 1 : Nat) : Int) := by
      have hb : Rat.floor (((n - 1 : Nat) : ℚ))
          = Int.floor (((n - 1 : Nat) : ℚ)) := rfl
      rw [hb, Int.floor_natCast]
    rw [hfl, Int.toNat_natCast]
    simp
    omega
  have hmr : misc_date_range s e n
      = .ok (dateRangeBoth s e ((e - s) / ((n : ℚ) - 1))) := by
    unfold misc_date_range
    rw [if_pos hn0, if_neg hn1]
    have hred : (if (e - s) / ((n : ℚ) - 1) ≤ 0
        then (Except.error "ValueError" : Except String (List ℚ))
        else Except.ok (dateRangeBoth s e ((e - s) / ((n : ℚ) - 1))))
        = (Except.ok (dateRangeBoth s e ((e - s) / ((n : ℚ) - 1))) :
            Except String (List ℚ)) := by
      rw [if_neg (not_le.mpr hfpos)]
    exact hred
  refine ⟨(dateRangeBoth s e ((e - s) / ((n : ℚ) - 1))).zip
      (twValueRows devices w adn), ?_, ?_, ?_, ?_, ?_⟩
  · show (match misc_date_range s e n with
        | Except.error err =>
          (Except.error err : Except String (List (ℚ × List PyVal)))
        | Except.ok idx =>
          if idx.length = (twValueRows devices w adn).length
          then Except.ok (idx.zip (twValueRows devices w adn))
          else Except.error "ValueError") = _
    rw [hmr]
    show (if (dateRangeBoth s e ((e - s) / ((n : ℚ) - 1))).length = n
        then Except.ok ((dateRangeBoth s e ((e - s) / ((n : ℚ) - 1))).zip
          (twValueRows devices w adn))
        else (Except.error "ValueError" :
          Except String (List (ℚ × List PyVal)))) = _
    rw [if_pos hflen]
  · rw [List.length_zip, hflen, ← hn, min_self]
  · exact List.map_snd_zip _ _ (le_of_eq hflen.symm)
  · rintro ⟨lbl, row⟩ hr
    have hrow : row ∈ twValueRows devices w adn := (List.of_mem_zip hr).2
    unfold twValueRows at hrow
    have hfil := (List.mem_filter.mp hrow).2
    simpa using hfil
  · rintro ⟨row, hrow, hNA⟩
    rw [List.length_zip, hflen, ← hn, min_self]
    have hlt : (twValueRows devices w adn).length
        < (transposeVals (if adn then devices else dedupByName devices)
            w).length := by
      unfold twValueRows
      apply List.length_filter_lt_length_iff_exists.mpr
      exact ⟨row, hrow, by simp [hNA]⟩
    have hw : (transposeVals (if adn then devices else dedupByName devices)
        w).length = w := by
      unfold transposeVals
      simp
    omega

set_option maxRecDepth 10000 in
/-- C10, witness: two devices over three reading columns with one missing
value; the dropped middle row makes the count-derived index two periods
long, shorter than the raw reading count of three. -/
theorem claim_C10_witness :
    ∃ frame, tw_get_timeseries_frame
        [("a", [PyVal.num (some 1), PyVal.num none, PyVal.num (some 2)]),
         ("b", [PyVal.num (some 3), PyVal.num (some 4), PyVal.num (some 5)])]
        3 0 10 none true = .ok frame ∧
      frame.length = (twValueRows
        [("a", [PyVal.num (some 1), PyVal.num none, PyVal.num (some 2)]),
         ("b", [PyVal.num (some 3), PyVal.num (some 4), PyVal.num (some 5)])]
        3 true).length ∧
      frame.map Prod.snd = twValueRows
        [("a", [PyVal.num (some 1), PyVal.num none, PyVal.num (some 2)]),
         ("b", [PyVal.num (some 3), PyVal.num (some 4), PyVal.num (some 5)])]
        3 true ∧
      (∀ r ∈ frame, r.2.any PyVal.isNA = false) ∧
      ((∃ row ∈ transposeVals (if true then
          [("a", [PyVal.num (some 1), PyVal.num none, PyVal.num (some 2)]),
           ("b", [PyVal.num (some 3), PyVal.num (some 4), PyVal.num (some 5)])]
          else dedupByName
          [("a", [PyVal.num (some 1), PyVal.num none, PyVal.num (some 2)]),
           ("b", [PyVal.num (some 3), PyVal.num (some 4), PyVal.num (some 5)])])
          3, row.any PyVal.isNA = true) →
        frame.length < 3) :=
  claim_C10_count_derived_index _ 3 0 10 true (by norm_num) (by decide)


end Ediel
